import Mathlib

/-!
Verification of the resource-profile message protocol
(`ProfileDTO.pb.go` of the turbo-go-sdk vendored in kubeturbo).

The message structures, their getters and the oneof marshal/unmarshal/size
hooks are embedded from the source file.  The generic tag-length-value wire
codec that protoc-generated code delegates to (the `proto` package) is not
part of the repository sources, so it is modelled from the spec (§4.3, §7):
varint keys `(fieldNumber <<< 3) ||| wireType`, varint / fixed32 / fixed64 /
length-delimited payloads, unknown-field preservation in `XXX_unrecognized`,
and the post-parse required-field check.

Bytes are modelled as `List Nat` (each element a byte value).  `float32`
scalars are carried as their 32-bit patterns (`Nat < 2^32`); the codec never
interprets them numerically.  `int32` scalars are `Int` values transported
through their unsigned 64-bit varint image, as the Go encoder does.
-/

namespace ProfileProto

/-- Modelled from the spec: the decode-error taxonomy of §7. -/
inductive DecodeError where
  | missingRequiredField (fieldName : String)
  | malformedVarint
  | malformedVariant
  | unexpectedWireType
  | truncatedMessage
deriving DecidableEq

/-- Modelled from the spec: base-128 varint emission (little-endian 7-bit
groups, continuation bit on every byte but the last). -/
def encodeVarint (n : Nat) : List Nat :=
  if n < 128 then [n] else (n % 128 + 128) :: encodeVarint (n / 128)
termination_by n
decreasing_by exact Nat.div_lt_self (by omega) (by omega)

/-- Modelled from the spec: varint parsing.  Returns the decoded value, the
consumed bytes and the remaining bytes; `none` when the stream ends inside
the varint. -/
def decodeVarint : List Nat → Option (Nat × List Nat × List Nat)
  | [] => none
  | b :: rest =>
    if b < 128 then some (b, [b], rest)
    else
      match decodeVarint rest with
      | some (n, c, r) => some (n * 128 + (b - 128), b :: c, r)
      | none => none

theorem encodeVarint_ne_nil (n : Nat) : encodeVarint n ≠ [] := by
  rw [encodeVarint]
  split <;> simp

theorem decodeVarint_encodeVarint (n : Nat) (rest : List Nat) :
    decodeVarint (encodeVarint n ++ rest) = some (n, encodeVarint n, rest) := by
  induction n using Nat.strong_induction_on generalizing rest with
  | _ n ih =>
    rw [encodeVarint]
    by_cases h : n < 128
    · simp [h, decodeVarint]
    · have hd : n / 128 < n := Nat.div_lt_self (by omega) (by omega)
      have h2 : ¬(n % 128 + 128 < 128) := by omega
      simp only [if_neg h, List.cons_append, decodeVarint, if_neg h2, ih _ hd]
      have : n / 128 * 128 + (n % 128 + 128 - 128) = n := by omega
      simp [this]
      omega

/-- The consumed bytes of a successful varint parse are the corresponding
consumed head of the input. -/
theorem decodeVarint_split {bs : List Nat} {n : Nat} {c r : List Nat}
    (h : decodeVarint bs = some (n, c, r)) : bs = c ++ r := by
  induction bs generalizing n c r with
  | nil => simp [decodeVarint] at h
  | cons b rest ih =>
    simp only [decodeVarint] at h
    by_cases hb : b < 128
    · simp [hb] at h
      obtain ⟨h1, h2, h3⟩ := h
      simp [← h2, ← h3]
    · simp only [if_neg hb] at h
      cases hrec : decodeVarint rest with
      | none => simp [hrec] at h
      | some t =>
        obtain ⟨n', c', r'⟩ := t
        simp [hrec] at h
        obtain ⟨h1, h2, h3⟩ := h
        have := ih hrec
        simp [← h2, ← h3, this]

theorem decodeVarint_consumed_ne_nil {bs : List Nat} {n : Nat} {c r : List Nat}
    (h : decodeVarint bs = some (n, c, r)) : c ≠ [] := by
  cases bs with
  | nil => simp [decodeVarint] at h
  | cons b rest =>
    simp only [decodeVarint] at h
    by_cases hb : b < 128
    · simp [hb] at h
      obtain ⟨-, h2, -⟩ := h
      simp [← h2]
    · simp only [if_neg hb] at h
      cases hrec : decodeVarint rest with
      | none => simp [hrec] at h
      | some t =>
        obtain ⟨n', c', r'⟩ := t
        simp [hrec] at h
        obtain ⟨-, h2, -⟩ := h
        simp [← h2]

/-- Varint parsing only looks at the consumed head: appending extra bytes
after the input leaves the result unchanged (up to the extended rest). -/
theorem decodeVarint_extend {bs : List Nat} {n : Nat} {c r : List Nat}
    (h : decodeVarint bs = some (n, c, r)) (ext : List Nat) :
    decodeVarint (bs ++ ext) = some (n, c, r ++ ext) := by
  induction bs generalizing n c r with
  | nil => simp [decodeVarint] at h
  | cons b rest ih =>
    simp only [decodeVarint] at h ⊢
    by_cases hb : b < 128
    · simp [hb] at h ⊢
      obtain ⟨h1, h2, h3⟩ := h
      simp [← h1, ← h2, ← h3]
    · simp only [if_neg hb] at h ⊢
      cases hrec : decodeVarint rest with
      | none => simp [hrec] at h
      | some t =>
        obtain ⟨n', c', r'⟩ := t
        simp [hrec] at h
        obtain ⟨h1, h2, h3⟩ := h
        rw [List.append_eq, ih hrec]
        simp [← h1, ← h2, ← h3]

/-- Modelled from the spec: take exactly `k` bytes from the stream, failing
when fewer remain (`TRUNCATED_MESSAGE`). -/
def takeExact (k : Nat) (bs : List Nat) : Option (List Nat × List Nat) :=
  if k ≤ bs.length then some (bs.take k, bs.drop k) else none

theorem takeExact_append (c r : List Nat) :
    takeExact c.length (c ++ r) = some (c, r) := by
  simp [takeExact, List.take_left, List.drop_left]

theorem takeExact_split {k : Nat} {bs c r : List Nat}
    (h : takeExact k bs = some (c, r)) : bs = c ++ r ∧ c.length = k := by
  simp only [takeExact] at h
  split at h
  · rename_i hk
    simp at h
    obtain ⟨h1, h2⟩ := h
    constructor
    · rw [← h1, ← h2]
      simp
    · rw [← h1]
      simp [List.length_take]
      omega
  · simp at h

theorem takeExact_extend {k : Nat} {bs c r : List Nat}
    (h : takeExact k bs = some (c, r)) (ext : List Nat) :
    takeExact k (bs ++ ext) = some (c, r ++ ext) := by
  obtain ⟨hsplit, hlen⟩ := takeExact_split h
  rw [hsplit, List.append_assoc, ← hlen, takeExact_append]

/-- Modelled from the spec: the payload of one wire field, keyed by its wire
type: varint (0), fixed 64-bit (1), length-delimited (2), fixed 32-bit (5). -/
inductive WirePayload where
  | vint (value : Nat)
  | fixed64 (bytes8 : List Nat)
  | lenDelim (content : List Nat)
  | fixed32 (bytes4 : List Nat)
deriving DecidableEq

/-- Modelled from the spec: one parsed wire field: field number, wire type,
structured payload, and the exact raw bytes it occupied on the wire (kept so
unknown fields can be preserved verbatim). -/
structure RawField where
  num : Nat
  wire : Nat
  payload : WirePayload
  raw : List Nat
deriving DecidableEq

/-- Content bytes of a length-delimited field (empty for other wire types). -/
def RawField.content (f : RawField) : List Nat :=
  match f.payload with
  | .lenDelim c => c
  | _ => []

/-- Modelled from the spec: parse one field: a varint key
`(fieldNumber <<< 3) ||| wireType` followed by the payload dictated by the
wire type. -/
def parseField (bs : List Nat) : Except DecodeError (RawField × List Nat) :=
  match decodeVarint bs with
  | none => .error .malformedVarint
  | some (key, kc, r1) =>
    if key % 8 = 0 then
      match decodeVarint r1 with
      | none => .error .malformedVarint
      | some (v, vc, r2) => .ok (⟨key / 8, 0, .vint v, kc ++ vc⟩, r2)
    else if key % 8 = 1 then
      match takeExact 8 r1 with
      | none => .error .truncatedMessage
      | some (c, r2) => .ok (⟨key / 8, 1, .fixed64 c, kc ++ c⟩, r2)
    else if key % 8 = 2 then
      match decodeVarint r1 with
      | none => .error .malformedVarint
      | some (len, lc, r2) =>
        match takeExact len r2 with
        | none => .error .truncatedMessage
        | some (c, r3) => .ok (⟨key / 8, 2, .lenDelim c, kc ++ lc ++ c⟩, r3)
    else if key % 8 = 5 then
      match takeExact 4 r1 with
      | none => .error .truncatedMessage
      | some (c, r2) => .ok (⟨key / 8, 5, .fixed32 c, kc ++ c⟩, r2)
    else .error .unexpectedWireType

/-- A successful field parse consumed exactly the bytes recorded in `raw`. -/
theorem parseField_raw {bs : List Nat} {f : RawField} {rest : List Nat}
    (h : parseField bs = .ok (f, rest)) : bs = f.raw ++ rest := by
  simp only [parseField] at h
  cases hk : decodeVarint bs with
  | none => simp [hk] at h
  | some t =>
    obtain ⟨key, kc, r1⟩ := t
    simp only [hk] at h
    have hbs := decodeVarint_split hk
    by_cases h0 : key % 8 = 0
    · simp only [if_pos h0] at h
      cases hv : decodeVarint r1 with
      | none => simp [hv] at h
      | some t2 =>
        obtain ⟨v, vc, r2⟩ := t2
        have hr1 := decodeVarint_split hv
        simp [hv] at h
        obtain ⟨h1, h2⟩ := h
        rw [← h1, hbs, hr1, ← h2]
        simp
    · simp only [if_neg h0] at h
      by_cases h1w : key % 8 = 1
      · simp only [if_pos h1w] at h
        cases ht : takeExact 8 r1 with
        | none => simp [ht] at h
        | some t2 =>
          obtain ⟨c, r2⟩ := t2
          obtain ⟨hr1, -⟩ := takeExact_split ht
          simp [ht] at h
          obtain ⟨h1, h2⟩ := h
          rw [← h1, hbs, hr1, ← h2]
          simp
      · simp only [if_neg h1w] at h
        by_cases h2w : key % 8 = 2
        · simp only [if_pos h2w] at h
          cases hv : decodeVarint r1 with
          | none => simp [hv] at h
          | some t2 =>
            obtain ⟨len, lc, r2⟩ := t2
            have hr1 := decodeVarint_split hv
            simp only [hv] at h
            cases ht : takeExact len r2 with
            | none => simp [ht] at h
            | some t3 =>
              obtain ⟨c, r3⟩ := t3
              obtain ⟨hr2, -⟩ := takeExact_split ht
              simp [ht] at h
              obtain ⟨h1, h2⟩ := h
              rw [← h1, hbs, hr1, hr2, ← h2]
              simp
        · simp only [if_neg h2w] at h
          by_cases h5w : key % 8 = 5
          · simp only [if_pos h5w] at h
            cases ht : takeExact 4 r1 with
            | none => simp [ht] at h
            | some t2 =>
              obtain ⟨c, r2⟩ := t2
              obtain ⟨hr1, -⟩ := takeExact_split ht
              simp [ht] at h
              obtain ⟨h1, h2⟩ := h
              rw [← h1, hbs, hr1, ← h2]
              simp
          · simp [if_neg h5w] at h

/-- A successful field parse consumes at least one byte. -/
theorem parseField_raw_ne_nil {bs : List Nat} {f : RawField} {rest : List Nat}
    (h : parseField bs = .ok (f, rest)) : f.raw ≠ [] := by
  simp only [parseField] at h
  cases hk : decodeVarint bs with
  | none => simp [hk] at h
  | some t =>
    obtain ⟨key, kc, r1⟩ := t
    simp only [hk] at h
    have hkc := decodeVarint_consumed_ne_nil hk
    by_cases h0 : key % 8 = 0
    · simp only [if_pos h0] at h
      cases hv : decodeVarint r1 with
      | none => simp [hv] at h
      | some t2 =>
        obtain ⟨v, vc, r2⟩ := t2
        simp [hv] at h
        obtain ⟨h1, -⟩ := h
        rw [← h1]
        simp [hkc]
    · simp only [if_neg h0] at h
      by_cases h1w : key % 8 = 1
      · simp only [if_pos h1w] at h
        cases ht : takeExact 8 r1 with
        | none => simp [ht] at h
        | some t2 =>
          obtain ⟨c, r2⟩ := t2
          simp [ht] at h
          obtain ⟨h1, -⟩ := h
          rw [← h1]
          simp [hkc]
      · simp only [if_neg h1w] at h
        by_cases h2w : key % 8 = 2
        · simp only [if_pos h2w] at h
          cases hv : decodeVarint r1 with
          | none => simp [hv] at h
          | some t2 =>
            obtain ⟨len, lc, r2⟩ := t2
            simp only [hv] at h
            cases ht : takeExact len r2 with
            | none => simp [ht] at h
            | some t3 =>
              obtain ⟨c, r3⟩ := t3
              simp [ht] at h
              obtain ⟨h1, -⟩ := h
              rw [← h1]
              simp [hkc]
        · simp only [if_neg h2w] at h
          by_cases h5w : key % 8 = 5
          · simp only [if_pos h5w] at h
            cases ht : takeExact 4 r1 with
            | none => simp [ht] at h
            | some t2 =>
              obtain ⟨c, r2⟩ := t2
              simp [ht] at h
              obtain ⟨h1, -⟩ := h
              rw [← h1]
              simp [hkc]
          · simp [if_neg h5w] at h

theorem parseField_consumes {bs : List Nat} {f : RawField} {rest : List Nat}
    (h : parseField bs = .ok (f, rest)) : rest.length < bs.length := by
  have hr := parseField_raw h
  have hne := parseField_raw_ne_nil h
  rw [hr]
  simp only [List.length_append]
  have : 0 < f.raw.length := List.length_pos.mpr hne
  omega

/-- Field parsing only looks at the consumed bytes: extending the stream
extends the rest and changes nothing else. -/
theorem parseField_extend {bs : List Nat} {f : RawField} {rest : List Nat}
    (h : parseField bs = .ok (f, rest)) (ext : List Nat) :
    parseField (bs ++ ext) = .ok (f, rest ++ ext) := by
  simp only [parseField] at h ⊢
  cases hk : decodeVarint bs with
  | none => simp [hk] at h
  | some t =>
    obtain ⟨key, kc, r1⟩ := t
    simp only [hk] at h
    rw [decodeVarint_extend hk ext]
    by_cases h0 : key % 8 = 0
    · simp only [if_pos h0] at h ⊢
      cases hv : decodeVarint r1 with
      | none => simp [hv] at h
      | some t2 =>
        obtain ⟨v, vc, r2⟩ := t2
        rw [decodeVarint_extend hv ext]
        simp [hv] at h
        simp [h]
    · simp only [if_neg h0] at h ⊢
      by_cases h1w : key % 8 = 1
      · simp only [if_pos h1w] at h ⊢
        cases ht : takeExact 8 r1 with
        | none => simp [ht] at h
        | some t2 =>
          obtain ⟨c, r2⟩ := t2
          rw [takeExact_extend ht ext]
          simp [ht] at h
          simp [h]
      · simp only [if_neg h1w] at h ⊢
        by_cases h2w : key % 8 = 2
        · simp only [if_pos h2w] at h ⊢
          cases hv : decodeVarint r1 with
          | none => simp [hv] at h
          | some t2 =>
            obtain ⟨len, lc, r2⟩ := t2
            rw [decodeVarint_extend hv ext]
            simp only [hv] at h
            cases ht : takeExact len r2 with
            | none => simp [ht] at h
            | some t3 =>
              obtain ⟨c, r3⟩ := t3
              simp only [takeExact_extend ht ext]
              simp [ht] at h
              simp [h]
        · simp only [if_neg h2w] at h ⊢
          by_cases h5w : key % 8 = 5
          · simp only [if_pos h5w] at h ⊢
            cases ht : takeExact 4 r1 with
            | none => simp [ht] at h
            | some t2 =>
              obtain ⟨c, r2⟩ := t2
              rw [takeExact_extend ht ext]
              simp [ht] at h
              simp [h]
          · simp [if_neg h5w] at h

/-- Modelled from the spec: parse a whole byte stream into its field
sequence.  `fuel` bounds the number of fields; since every field occupies at
least one byte, `fuel = bs.length` always suffices, and the fuel-exhaustion
branch is unreachable at the top level. -/
def parseFields : Nat → List Nat → Except DecodeError (List RawField)
  | _, [] => .ok []
  | 0, _ :: _ => .error .truncatedMessage
  | fuel + 1, b :: bs =>
    match parseField (b :: bs) with
    | .error e => .error e
    | .ok (f, rest) =>
      match parseFields fuel rest with
      | .error e => .error e
      | .ok fs => .ok (f :: fs)

theorem parseFields_le_fuel {fuel : Nat} {bs : List Nat} {fs : List RawField}
    (h : parseFields fuel bs = .ok fs) : fs.length ≤ fuel := by
  induction fuel generalizing bs fs with
  | zero =>
    cases bs with
    | nil =>
      simp only [parseFields] at h
      injection h with h
      subst h
      simp
    | cons b bs => simp [parseFields] at h
  | succ fuel ih =>
    cases bs with
    | nil =>
      simp only [parseFields] at h
      injection h with h
      subst h
      simp
    | cons b bs =>
      simp only [parseFields] at h
      cases hp : parseField (b :: bs) with
      | error e => simp [hp] at h
      | ok t =>
        obtain ⟨f, rest⟩ := t
        simp only [hp] at h
        cases hrec : parseFields fuel rest with
        | error e => simp [hrec] at h
        | ok fs' =>
          simp only [hrec] at h
          injection h with h
          subst h
          have := ih hrec
          simp only [List.length_cons]
          omega

/-- The raw bytes of a parsed field list, concatenated. -/
def rawBytes (fs : List RawField) : List Nat :=
  fs.foldr (fun f acc => f.raw ++ acc) []

theorem rawBytes_cons (f : RawField) (fs : List RawField) :
    rawBytes (f :: fs) = f.raw ++ rawBytes fs := rfl

theorem rawBytes_append (a b : List RawField) :
    rawBytes (a ++ b) = rawBytes a ++ rawBytes b := by
  induction a with
  | nil => simp [rawBytes]
  | cons f a ih => simp [rawBytes_cons, ih, List.append_assoc]

/-- A successful stream parse consumed exactly the input: the raw bytes of
the parsed fields concatenate back to the stream. -/
theorem parseFields_rawBytes {fuel : Nat} {bs : List Nat} {fs : List RawField}
    (h : parseFields fuel bs = .ok fs) : rawBytes fs = bs := by
  induction fuel generalizing bs fs with
  | zero =>
    cases bs with
    | nil =>
      simp only [parseFields] at h
      injection h with h
      subst h
      rfl
    | cons b bs => simp [parseFields] at h
  | succ fuel ih =>
    cases bs with
    | nil =>
      simp only [parseFields] at h
      injection h with h
      subst h
      rfl
    | cons b bs =>
      simp only [parseFields] at h
      cases hp : parseField (b :: bs) with
      | error e => simp [hp] at h
      | ok t =>
        obtain ⟨f, rest⟩ := t
        simp only [hp] at h
        cases hrec : parseFields fuel rest with
        | error e => simp [hrec] at h
        | ok fs' =>
          simp only [hrec] at h
          injection h with h
          subst h
          rw [rawBytes_cons, ih hrec, ← parseField_raw hp]

theorem parseFields_le_length {fuel : Nat} {bs : List Nat} {fs : List RawField}
    (h : parseFields fuel bs = .ok fs) : fs.length ≤ bs.length := by
  induction fuel generalizing bs fs with
  | zero =>
    cases bs with
    | nil =>
      simp only [parseFields] at h
      injection h with h
      subst h
      simp
    | cons b bs => simp [parseFields] at h
  | succ fuel ih =>
    cases bs with
    | nil =>
      simp only [parseFields] at h
      injection h with h
      subst h
      simp
    | cons b bs =>
      simp only [parseFields] at h
      cases hp : parseField (b :: bs) with
      | error e => simp [hp] at h
      | ok t =>
        obtain ⟨f, rest⟩ := t
        simp only [hp] at h
        cases hrec : parseFields fuel rest with
        | error e => simp [hrec] at h
        | ok fs' =>
          simp only [hrec] at h
          injection h with h
          subst h
          have h1 := ih hrec
          have h2 := parseField_consumes hp
          simp only [List.length_cons] at h2 ⊢
          omega

/-- Any fuel at least the number of parsed fields gives the same result. -/
theorem parseFields_mono {fuel : Nat} {bs : List Nat} {fs : List RawField}
    (h : parseFields fuel bs = .ok fs) :
    ∀ fuel', fs.length ≤ fuel' → parseFields fuel' bs = .ok fs := by
  induction fuel generalizing bs fs with
  | zero =>
    cases bs with
    | nil =>
      simp only [parseFields] at h
      injection h with h
      subst h
      intro fuel' _
      simp [parseFields]
    | cons b bs => simp [parseFields] at h
  | succ fuel ih =>
    cases bs with
    | nil =>
      simp only [parseFields] at h
      injection h with h
      subst h
      intro fuel' _
      simp [parseFields]
    | cons b bs =>
      simp only [parseFields] at h
      cases hp : parseField (b :: bs) with
      | error e => simp [hp] at h
      | ok t =>
        obtain ⟨f, rest⟩ := t
        simp only [hp] at h
        cases hrec : parseFields fuel rest with
        | error e => simp [hrec] at h
        | ok fs' =>
          simp only [hrec] at h
          injection h with h
          subst h
          intro fuel' hlen
          simp only [List.length_cons] at hlen
          obtain ⟨fuel'', rfl⟩ : ∃ k, fuel' = k + 1 := ⟨fuel' - 1, by omega⟩
          simp only [parseFields, hp]
          rw [ih hrec fuel'' (by omega)]

/-- Parsing concatenated streams concatenates the parsed field lists. -/
theorem parseFields_append {fuel₁ fuel₂ : Nat} {bs₁ bs₂ : List Nat}
    {fs₁ fs₂ : List RawField}
    (h₁ : parseFields fuel₁ bs₁ = .ok fs₁) (h₂ : parseFields fuel₂ bs₂ = .ok fs₂) :
    parseFields (fuel₁ + fuel₂) (bs₁ ++ bs₂) = .ok (fs₁ ++ fs₂) := by
  induction fuel₁ generalizing bs₁ fs₁ with
  | zero =>
    cases bs₁ with
    | nil =>
      simp only [parseFields] at h₁
      injection h₁ with h₁
      subst h₁
      simp only [List.nil_append]
      exact parseFields_mono h₂ _
        (le_trans (parseFields_le_fuel h₂) (Nat.le_add_left _ _))
    | cons b bs => simp [parseFields] at h₁
  | succ fuel ih =>
    cases bs₁ with
    | nil =>
      simp only [parseFields] at h₁
      injection h₁ with h₁
      subst h₁
      simp only [List.nil_append]
      exact parseFields_mono h₂ _
        (le_trans (parseFields_le_fuel h₂) (Nat.le_add_left _ _))
    | cons b bs =>
      simp only [parseFields] at h₁
      cases hp : parseField (b :: bs) with
      | error e => simp [hp] at h₁
      | ok t =>
        obtain ⟨f, rest⟩ := t
        simp only [hp] at h₁
        cases hrec : parseFields fuel rest with
        | error e => simp [hrec] at h₁
        | ok fs' =>
          simp only [hrec] at h₁
          injection h₁ with h₁
          subst h₁
          have hext := parseField_extend hp bs₂
          have hrest := ih hrec
          have harith : fuel + 1 + fuel₂ = (fuel + fuel₂) + 1 := by omega
          rw [harith]
          rw [List.cons_append] at hext ⊢
          simp only [parseFields, hext, hrest, List.cons_append]

/-- Modelled from the spec: the varint key combining field number and wire
type. -/
def encodeKey (num wt : Nat) : List Nat := encodeVarint (num * 8 + wt)

/-- A varint-payload field as emitted by the encoder. -/
def mkVarintField (num value : Nat) : RawField :=
  ⟨num, 0, .vint value, encodeKey num 0 ++ encodeVarint value⟩

/-- A length-delimited field as emitted by the encoder. -/
def mkLenField (num : Nat) (content : List Nat) : RawField :=
  ⟨num, 2, .lenDelim content, encodeKey num 2 ++ encodeVarint content.length ++ content⟩

/-- A fixed 32-bit field as emitted by the encoder. -/
def mkFixed32Field (num : Nat) (bytes4 : List Nat) : RawField :=
  ⟨num, 5, .fixed32 bytes4, encodeKey num 5 ++ bytes4⟩

theorem parseField_mkVarintField (num value : Nat) (rest : List Nat) :
    parseField ((mkVarintField num value).raw ++ rest) =
      .ok (mkVarintField num value, rest) := by
  simp only [mkVarintField, encodeKey, parseField, List.append_assoc]
  rw [decodeVarint_encodeVarint]
  have h8 : (num * 8 + 0) % 8 = 0 := by omega
  have hd : (num * 8 + 0) / 8 = num := by omega
  simp only [h8, if_pos rfl]
  rw [decodeVarint_encodeVarint]
  simp [hd]

theorem parseField_mkLenField (num : Nat) (content rest : List Nat) :
    parseField ((mkLenField num content).raw ++ rest) =
      .ok (mkLenField num content, rest) := by
  have h8 : (num * 8 + 2) % 8 = 2 := by omega
  have hd : (num * 8 + 2) / 8 = num := by omega
  simp only [mkLenField, encodeKey, parseField, List.append_assoc,
    decodeVarint_encodeVarint, h8, takeExact_append, hd]
  norm_num [List.append_assoc]

theorem parseField_mkFixed32Field (num : Nat) (bytes4 rest : List Nat)
    (hlen : bytes4.length = 4) :
    parseField ((mkFixed32Field num bytes4).raw ++ rest) =
      .ok (mkFixed32Field num bytes4, rest) := by
  simp only [mkFixed32Field, encodeKey, parseField, List.append_assoc]
  rw [decodeVarint_encodeVarint]
  have h8 : (num * 8 + 5) % 8 = 5 := by omega
  have hd : (num * 8 + 5) / 8 = num := by omega
  have h0 : ¬((num * 8 + 5) % 8 = 0) := by omega
  have h1 : ¬((num * 8 + 5) % 8 = 1) := by omega
  have h2 : ¬((num * 8 + 5) % 8 = 2) := by omega
  simp only [if_neg h0, if_neg h1, if_neg h2, h8, if_pos rfl]
  rw [← hlen, takeExact_append]
  simp [hd]

/-- A field list each of whose members parses back from its own raw bytes
parses back in sequence from the concatenation. -/
theorem parseFields_rawBytes_of_each {fs : List RawField}
    (h : ∀ f ∈ fs, ∀ rest, parseField (f.raw ++ rest) = .ok (f, rest)) :
    parseFields fs.length (rawBytes fs) = .ok fs := by
  induction fs with
  | nil => simp [rawBytes, parseFields]
  | cons f fs ih =>
    have hf := h f (List.mem_cons_self f fs) (rawBytes fs)
    have hne : f.raw ≠ [] := parseField_raw_ne_nil hf
    rw [rawBytes_cons]
    obtain ⟨b, raw', hraw⟩ : ∃ b raw', f.raw = b :: raw' := by
      cases hr : f.raw with
      | nil => exact absurd hr hne
      | cons b r => exact ⟨b, r, rfl⟩
    rw [hraw] at hf ⊢
    simp only [List.cons_append] at hf
    simp only [List.length_cons, List.cons_append, List.append_eq, parseFields, hf]
    rw [ih (fun g hg rest => h g (List.mem_cons_of_mem f hg) rest)]

/-- The unsigned 64-bit varint image of an `int32` value, as the Go encoder
emits it (sign extension to 64 bits, then the unsigned representative). -/
def int32ToUint64 (v : Int) : Nat := (v % 18446744073709551616).toNat

/-- The `int32` value recovered from a decoded varint, as the Go decoder
computes it (truncation to the low 32 bits, interpreted in two's
complement). -/
def uint64ToInt32 (n : Nat) : Int :=
  ((n : Int) % 4294967296 + 2147483648) % 4294967296 - 2147483648

/-- An `Int` is in the value range of `int32`. -/
def int32InRange (v : Int) : Bool := (-2147483648 ≤ v) && (v < 2147483648)

theorem uint64ToInt32_int32ToUint64 {v : Int} (h : int32InRange v = true) :
    uint64ToInt32 (int32ToUint64 v) = v := by
  simp only [int32InRange, Bool.and_eq_true, decide_eq_true_eq] at h
  obtain ⟨h1, h2⟩ := h
  have hnn : 0 ≤ v % 18446744073709551616 := Int.emod_nonneg v (by norm_num)
  simp only [uint64ToInt32, int32ToUint64,
    Int.toNat_of_nonneg hnn]
  omega

/-- Little-endian emission of a 32-bit pattern as four bytes (`fixed32`). -/
def encodeFixed32 (n : Nat) : List Nat :=
  [n % 256, n / 256 % 256, n / 65536 % 256, n / 16777216 % 256]

/-- Reassembling a 32-bit pattern from four little-endian bytes. -/
def decodeFixed32 : List Nat → Nat
  | [b0, b1, b2, b3] => b0 + 256 * b1 + 65536 * b2 + 16777216 * b3
  | _ => 0

theorem encodeFixed32_length (n : Nat) : (encodeFixed32 n).length = 4 := rfl

theorem decodeFixed32_encodeFixed32 {n : Nat} (h : n < 4294967296) :
    decodeFixed32 (encodeFixed32 n) = n := by
  simp only [encodeFixed32, decodeFixed32]
  omega

/-- The varint image of a Go `bool` (`1` for true, `0` for false). -/
def encodeBoolNat (b : Bool) : Nat := if b then 1 else 0

/-- The Go decoder's reading of a varint as a `bool`: nonzero means true. -/
def decodeBoolNat (v : Nat) : Bool := v != 0

theorem decodeBoolNat_encodeBoolNat (b : Bool) :
    decodeBoolNat (encodeBoolNat b) = b := by
  cases b <;> rfl

/-- Modelled from the spec: the entity-type enumeration is an external
collaborator, consumed as an opaque stable `int32` code (§1, §6).  Only the
code is relevant to this layer, so the type is its code. -/
abbrev EntityDTO_EntityType : Type := Int

/-- Modelled from the spec: the enum constant the generated getter returns
when `entityType` is absent.  Its concrete external code is irrelevant to
every property proved in this file; `0` is used as its code here. -/
def EntityDTO_SWITCH : EntityDTO_EntityType := 0

/-- Modelled from the spec: a further entity-type code, used only to build
concrete sample messages; its concrete value is irrelevant. -/
def EntityDTO_VIRTUAL_MACHINE : EntityDTO_EntityType := 1

/-- Modelled from the spec: the commodity-type enumeration, likewise an
external collaborator consumed as an opaque stable `int32` code. -/
abbrev CommodityDTO_CommodityType : Type := Int

/-- Modelled from the spec: the enum constant the generated getter returns
when `commodityType` is absent; concrete code irrelevant, `0` used here. -/
def CommodityDTO_CLUSTER : CommodityDTO_CommodityType := 0

/-- Modelled from the spec: the CPU commodity code, used only in concrete
sample profiles; its concrete value is irrelevant. -/
def CommodityDTO_CPU : CommodityDTO_CommodityType := 1

/-- `EntityProfileDTO_VMProfileDTO` from ProfileDTO.pb.go: VM-specific
profile data.  Pointer fields become `Option`; `*float32` carries its 32-bit
pattern. -/
structure EntityProfileDTO_VMProfileDTO where
  NumVCPUs : Option Int
  VCPUSpeed : Option Nat
  NumStorageConsumed : Option Int
  XXX_unrecognized : List Nat
deriving DecidableEq

/-- `EntityProfileDTO_PMProfileDTO` from ProfileDTO.pb.go: PM-specific
profile data. -/
structure EntityProfileDTO_PMProfileDTO where
  NumCores : Option Int
  CpuCoreSpeed : Option Nat
  XXX_unrecognized : List Nat
deriving DecidableEq

/-- `CommodityProfileDTO` from ProfileDTO.pb.go.  `commodityType` is a
required enum; the five `*float32` fields carry 32-bit patterns. -/
structure CommodityProfileDTO where
  CommodityType : Option CommodityDTO_CommodityType
  Capacity : Option Nat
  ConsumedFactor : Option Nat
  Consumed : Option Nat
  Reservation : Option Nat
  Overhead : Option Nat
  XXX_unrecognized : List Nat
deriving DecidableEq

/-- The `isEntityProfileDTO_VMOrPMProfileData` interface from
ProfileDTO.pb.go: within the package, exactly the two wrapper types
implement it, so it is a closed sum. -/
inductive isEntityProfileDTO_VMOrPMProfileData where
  | VmProfileDTO (VmProfileDTO : EntityProfileDTO_VMProfileDTO)
  | PmProfileDTO (PmProfileDTO : EntityProfileDTO_PMProfileDTO)
deriving DecidableEq

/-- `EntityProfileDTO` from ProfileDTO.pb.go.  Strings are byte lists;
the oneof interface field is `Option` (Go `nil` is `none`); repeated fields
are lists; `EntityProperties` elements are external messages kept as their
opaque encoded payloads. -/
structure EntityProfileDTO where
  Id : Option (List Nat)
  DisplayName : Option (List Nat)
  EntityType : Option EntityDTO_EntityType
  CommodityProfile : List CommodityProfileDTO
  Model : Option (List Nat)
  Vendor : Option (List Nat)
  Description : Option (List Nat)
  VMOrPMProfileData : Option isEntityProfileDTO_VMOrPMProfileData
  EnableProvisionMatch : Option Bool
  EnableResizeMatch : Option Bool
  EntityProperties : List (List Nat)
  XXX_unrecognized : List Nat
deriving DecidableEq

/-- `DeploymentProfileDTO` from ProfileDTO.pb.go.  `ContextData` elements
are external messages kept as their opaque encoded payloads. -/
structure DeploymentProfileDTO where
  Id : Option (List Nat)
  ProfileName : Option (List Nat)
  ContextData : List (List Nat)
  RelatedEntityProfileId : List (List Nat)
  RelatedScopeId : List (List Nat)
  XXX_unrecognized : List Nat
deriving DecidableEq

/-- Getter from ProfileDTO.pb.go: nil receiver or nil field yields `""`. -/
def EntityProfileDTO.GetId (m : Option EntityProfileDTO) : List Nat :=
  match m with
  | some mm =>
    match mm.Id with
    | some v => v
    | none => []
  | none => []

/-- Getter from ProfileDTO.pb.go. -/
def EntityProfileDTO.GetDisplayName (m : Option EntityProfileDTO) : List Nat :=
  match m with
  | some mm =>
    match mm.DisplayName with
    | some v => v
    | none => []
  | none => []

/-- Getter from ProfileDTO.pb.go: absent `entityType` yields the constant
`EntityDTO_SWITCH`. -/
def EntityProfileDTO.GetEntityType (m : Option EntityProfileDTO) :
    EntityDTO_EntityType :=
  match m with
  | some mm =>
    match mm.EntityType with
    | some v => v
    | none => EntityDTO_SWITCH
  | none => EntityDTO_SWITCH

/-- Getter from ProfileDTO.pb.go: nil receiver yields a nil slice. -/
def EntityProfileDTO.GetCommodityProfile (m : Option EntityProfileDTO) :
    List CommodityProfileDTO :=
  match m with
  | some mm => mm.CommodityProfile
  | none => []

/-- Getter from ProfileDTO.pb.go. -/
def EntityProfileDTO.GetModel (m : Option EntityProfileDTO) : List Nat :=
  match m with
  | some mm =>
    match mm.Model with
    | some v => v
    | none => []
  | none => []

/-- Getter from ProfileDTO.pb.go. -/
def EntityProfileDTO.GetVendor (m : Option EntityProfileDTO) : List Nat :=
  match m with
  | some mm =>
    match mm.Vendor with
    | some v => v
    | none => []
  | none => []

/-- Getter from ProfileDTO.pb.go. -/
def EntityProfileDTO.GetDescription (m : Option EntityProfileDTO) : List Nat :=
  match m with
  | some mm =>
    match mm.Description with
    | some v => v
    | none => []
  | none => []

/-- Getter from ProfileDTO.pb.go: nil receiver yields the nil interface. -/
def EntityProfileDTO.GetVMOrPMProfileData (m : Option EntityProfileDTO) :
    Option isEntityProfileDTO_VMOrPMProfileData :=
  match m with
  | some mm => mm.VMOrPMProfileData
  | none => none

/-- Getter from ProfileDTO.pb.go: type-asserts the oneof interface to the VM
wrapper, yielding nil on any other dynamic value. -/
def EntityProfileDTO.GetVmProfileDTO (m : Option EntityProfileDTO) :
    Option EntityProfileDTO_VMProfileDTO :=
  match EntityProfileDTO.GetVMOrPMProfileData m with
  | some (.VmProfileDTO v) => some v
  | _ => none

/-- Getter from ProfileDTO.pb.go: type-asserts the oneof interface to the PM
wrapper, yielding nil on any other dynamic value. -/
def EntityProfileDTO.GetPmProfileDTO (m : Option EntityProfileDTO) :
    Option EntityProfileDTO_PMProfileDTO :=
  match EntityProfileDTO.GetVMOrPMProfileData m with
  | some (.PmProfileDTO p) => some p
  | _ => none

/-- Getter from ProfileDTO.pb.go: absent flag yields `false`. -/
def EntityProfileDTO.GetEnableProvisionMatch (m : Option EntityProfileDTO) :
    Bool :=
  match m with
  | some mm =>
    match mm.EnableProvisionMatch with
    | some v => v
    | none => false
  | none => false

/-- Getter from ProfileDTO.pb.go: absent flag yields `false`. -/
def EntityProfileDTO.GetEnableResizeMatch (m : Option EntityProfileDTO) :
    Bool :=
  match m with
  | some mm =>
    match mm.EnableResizeMatch with
    | some v => v
    | none => false
  | none => false

/-- Getter from ProfileDTO.pb.go: nil receiver yields a nil slice. -/
def EntityProfileDTO.GetEntityProperties (m : Option EntityProfileDTO) :
    List (List Nat) :=
  match m with
  | some mm => mm.EntityProperties
  | none => []

/-- Getter from ProfileDTO.pb.go: absent `numVCPUs` yields `0`. -/
def EntityProfileDTO_VMProfileDTO.GetNumVCPUs
    (m : Option EntityProfileDTO_VMProfileDTO) : Int :=
  match m with
  | some mm =>
    match mm.NumVCPUs with
    | some v => v
    | none => 0
  | none => 0

/-- Getter from ProfileDTO.pb.go: absent `vCPUSpeed` yields `0` (the zero
float pattern). -/
def EntityProfileDTO_VMProfileDTO.GetVCPUSpeed
    (m : Option EntityProfileDTO_VMProfileDTO) : Nat :=
  match m with
  | some mm =>
    match mm.VCPUSpeed with
    | some v => v
    | none => 0
  | none => 0

/-- Getter from ProfileDTO.pb.go: absent `numStorageConsumed` yields `0`. -/
def EntityProfileDTO_VMProfileDTO.GetNumStorageConsumed
    (m : Option EntityProfileDTO_VMProfileDTO) : Int :=
  match m with
  | some mm =>
    match mm.NumStorageConsumed with
    | some v => v
    | none => 0
  | none => 0

/-- Getter from ProfileDTO.pb.go: absent `numCores` yields `0`. -/
def EntityProfileDTO_PMProfileDTO.GetNumCores
    (m : Option EntityProfileDTO_PMProfileDTO) : Int :=
  match m with
  | some mm =>
    match mm.NumCores with
    | some v => v
    | none => 0
  | none => 0

/-- Getter from ProfileDTO.pb.go: absent `cpuCoreSpeed` yields `0`. -/
def EntityProfileDTO_PMProfileDTO.GetCpuCoreSpeed
    (m : Option EntityProfileDTO_PMProfileDTO) : Nat :=
  match m with
  | some mm =>
    match mm.CpuCoreSpeed with
    | some v => v
    | none => 0
  | none => 0

/-- Getter from ProfileDTO.pb.go: absent `commodityType` yields the constant
`CommodityDTO_CLUSTER`. -/
def CommodityProfileDTO.GetCommodityType (m : Option CommodityProfileDTO) :
    CommodityDTO_CommodityType :=
  match m with
  | some mm =>
    match mm.CommodityType with
    | some v => v
    | none => CommodityDTO_CLUSTER
  | none => CommodityDTO_CLUSTER

/-- Getter from ProfileDTO.pb.go. -/
def CommodityProfileDTO.GetCapacity (m : Option CommodityProfileDTO) : Nat :=
  match m with
  | some mm =>
    match mm.Capacity with
    | some v => v
    | none => 0
  | none => 0

/-- Getter from ProfileDTO.pb.go. -/
def CommodityProfileDTO.GetConsumedFactor (m : Option CommodityProfileDTO) :
    Nat :=
  match m with
  | some mm =>
    match mm.ConsumedFactor with
    | some v => v
    | none => 0
  | none => 0

/-- Getter from ProfileDTO.pb.go. -/
def CommodityProfileDTO.GetConsumed (m : Option CommodityProfileDTO) : Nat :=
  match m with
  | some mm =>
    match mm.Consumed with
    | some v => v
    | none => 0
  | none => 0

/-- Getter from ProfileDTO.pb.go. -/
def CommodityProfileDTO.GetReservation (m : Option CommodityProfileDTO) :
    Nat :=
  match m with
  | some mm =>
    match mm.Reservation with
    | some v => v
    | none => 0
  | none => 0

/-- Getter from ProfileDTO.pb.go. -/
def CommodityProfileDTO.GetOverhead (m : Option CommodityProfileDTO) : Nat :=
  match m with
  | some mm =>
    match mm.Overhead with
    | some v => v
    | none => 0
  | none => 0

/-- Getter from ProfileDTO.pb.go. -/
def DeploymentProfileDTO.GetId (m : Option DeploymentProfileDTO) : List Nat :=
  match m with
  | some mm =>
    match mm.Id with
    | some v => v
    | none => []
  | none => []

/-- Getter from ProfileDTO.pb.go. -/
def DeploymentProfileDTO.GetProfileName (m : Option DeploymentProfileDTO) :
    List Nat :=
  match m with
  | some mm =>
    match mm.ProfileName with
    | some v => v
    | none => []
  | none => []

/-- Getter from ProfileDTO.pb.go: nil receiver yields a nil slice. -/
def DeploymentProfileDTO.GetContextData (m : Option DeploymentProfileDTO) :
    List (List Nat) :=
  match m with
  | some mm => mm.ContextData
  | none => []

/-- Getter from ProfileDTO.pb.go: nil receiver yields a nil slice. -/
def DeploymentProfileDTO.GetRelatedEntityProfileId
    (m : Option DeploymentProfileDTO) : List (List Nat) :=
  match m with
  | some mm => mm.RelatedEntityProfileId
  | none => []

/-- Getter from ProfileDTO.pb.go: nil receiver yields a nil slice. -/
def DeploymentProfileDTO.GetRelatedScopeId (m : Option DeploymentProfileDTO) :
    List (List Nat) :=
  match m with
  | some mm => mm.RelatedScopeId
  | none => []

/-- The (zero or one) wire fields of an optional scalar. -/
def optField {α : Type} (o : Option α) (mk : α → RawField) : List RawField :=
  match o with
  | some v => [mk v]
  | none => []

/-- The wire fields of a repeated field, in element order. -/
def repField {α : Type} (l : List α) (mk : α → RawField) : List RawField :=
  l.map mk

/-- Modelled from the spec: known fields are emitted in field-number order,
absent optionals are omitted, then `XXX_unrecognized` is appended verbatim. -/
def EntityProfileDTO_VMProfileDTO.knownFields
    (x : EntityProfileDTO_VMProfileDTO) : List RawField :=
  optField x.NumVCPUs (fun v => mkVarintField 1 (int32ToUint64 v))
    ++ optField x.VCPUSpeed (fun n => mkFixed32Field 2 (encodeFixed32 n))
    ++ optField x.NumStorageConsumed (fun v => mkVarintField 3 (int32ToUint64 v))

/-- Modelled from the spec: wire emission of a VM profile message. -/
def EntityProfileDTO_VMProfileDTO.encode
    (x : EntityProfileDTO_VMProfileDTO) : List Nat :=
  rawBytes x.knownFields ++ x.XXX_unrecognized

/-- Modelled from the spec: known-field emission of a PM profile message. -/
def EntityProfileDTO_PMProfileDTO.knownFields
    (x : EntityProfileDTO_PMProfileDTO) : List RawField :=
  optField x.NumCores (fun v => mkVarintField 1 (int32ToUint64 v))
    ++ optField x.CpuCoreSpeed (fun n => mkFixed32Field 2 (encodeFixed32 n))

/-- Modelled from the spec: wire emission of a PM profile message. -/
def EntityProfileDTO_PMProfileDTO.encode
    (x : EntityProfileDTO_PMProfileDTO) : List Nat :=
  rawBytes x.knownFields ++ x.XXX_unrecognized

/-- Modelled from the spec: known-field emission of a commodity profile. -/
def CommodityProfileDTO.knownFields (x : CommodityProfileDTO) :
    List RawField :=
  optField x.CommodityType (fun v => mkVarintField 1 (int32ToUint64 v))
    ++ optField x.Capacity (fun n => mkFixed32Field 2 (encodeFixed32 n))
    ++ optField x.ConsumedFactor (fun n => mkFixed32Field 3 (encodeFixed32 n))
    ++ optField x.Consumed (fun n => mkFixed32Field 4 (encodeFixed32 n))
    ++ optField x.Reservation (fun n => mkFixed32Field 5 (encodeFixed32 n))
    ++ optField x.Overhead (fun n => mkFixed32Field 6 (encodeFixed32 n))

/-- Modelled from the spec: wire emission of a commodity profile. -/
def CommodityProfileDTO.encode (x : CommodityProfileDTO) : List Nat :=
  rawBytes x.knownFields ++ x.XXX_unrecognized

/-- The wire fields of the oneof, as `_EntityProfileDTO_OneofMarshaler`
emits them: the single set variant under its fixed tag (8 for VM, 9 for
PM), nothing when the interface is nil. -/
def variantFields
    (v : Option isEntityProfileDTO_VMOrPMProfileData) : List RawField :=
  match v with
  | none => []
  | some (.VmProfileDTO vm) => [mkLenField 8 vm.encode]
  | some (.PmProfileDTO pm) => [mkLenField 9 pm.encode]

/-- Modelled from the spec: known-field emission of an entity profile. -/
def EntityProfileDTO.knownFields (x : EntityProfileDTO) : List RawField :=
  optField x.Id (mkLenField 1)
    ++ optField x.DisplayName (mkLenField 2)
    ++ optField x.EntityType (fun v => mkVarintField 3 (int32ToUint64 v))
    ++ repField x.CommodityProfile (fun c => mkLenField 4 c.encode)
    ++ optField x.Model (mkLenField 5)
    ++ optField x.Vendor (mkLenField 6)
    ++ optField x.Description (mkLenField 7)
    ++ variantFields x.VMOrPMProfileData
    ++ optField x.EnableProvisionMatch (fun b => mkVarintField 10 (encodeBoolNat b))
    ++ optField x.EnableResizeMatch (fun b => mkVarintField 11 (encodeBoolNat b))
    ++ repField x.EntityProperties (mkLenField 12)

/-- Modelled from the spec: wire emission of an entity profile. -/
def EntityProfileDTO.encode (x : EntityProfileDTO) : List Nat :=
  rawBytes x.knownFields ++ x.XXX_unrecognized

/-- Modelled from the spec: known-field emission of a deployment profile. -/
def DeploymentProfileDTO.knownFields (x : DeploymentProfileDTO) :
    List RawField :=
  optField x.Id (mkLenField 1)
    ++ optField x.ProfileName (mkLenField 2)
    ++ repField x.ContextData (mkLenField 3)
    ++ repField x.RelatedEntityProfileId (mkLenField 4)
    ++ repField x.RelatedScopeId (mkLenField 5)

/-- Modelled from the spec: wire emission of a deployment profile. -/
def DeploymentProfileDTO.encode (x : DeploymentProfileDTO) : List Nat :=
  rawBytes x.knownFields ++ x.XXX_unrecognized

/-- Fold a decode step over a parsed field list, aborting on the first
error (the per-message decode loop of the codec). -/
def foldFields {σ : Type} (step : σ → RawField → Except DecodeError σ) :
    σ → List RawField → Except DecodeError σ
  | st, [] => .ok st
  | st, f :: fs =>
    match step st f with
    | .error e => .error e
    | .ok st' => foldFields step st' fs

theorem foldFields_append {σ : Type}
    (step : σ → RawField → Except DecodeError σ) (st : σ) (a b : List RawField) :
    foldFields step st (a ++ b) =
      match foldFields step st a with
      | .error e => .error e
      | .ok st' => foldFields step st' b := by
  induction a generalizing st with
  | nil => simp [foldFields]
  | cons f a ih =>
    simp only [List.cons_append, foldFields]
    cases step st f with
    | error e => rfl
    | ok st' => exact ih st'

/-- Modelled from the spec: decode dispatch of a VM profile message field.
Known numbers are 1 (varint), 2 (fixed32), 3 (varint); any other field is
preserved verbatim in `XXX_unrecognized`. -/
def setVMField (st : EntityProfileDTO_VMProfileDTO) (f : RawField) :
    Except DecodeError EntityProfileDTO_VMProfileDTO :=
  if f.num = 1 then
    match f.payload with
    | .vint v => .ok { st with NumVCPUs := some (uint64ToInt32 v) }
    | _ => .error .unexpectedWireType
  else if f.num = 2 then
    match f.payload with
    | .fixed32 b => .ok { st with VCPUSpeed := some (decodeFixed32 b) }
    | _ => .error .unexpectedWireType
  else if f.num = 3 then
    match f.payload with
    | .vint v => .ok { st with NumStorageConsumed := some (uint64ToInt32 v) }
    | _ => .error .unexpectedWireType
  else .ok { st with XXX_unrecognized := st.XXX_unrecognized ++ f.raw }

/-- Modelled from the spec: decode of a VM profile message from its payload
bytes (no required fields to check afterwards). -/
def EntityProfileDTO_VMProfileDTO.decode (bs : List Nat) :
    Except DecodeError EntityProfileDTO_VMProfileDTO :=
  match parseFields bs.length bs with
  | .error e => .error e
  | .ok fs => foldFields setVMField ⟨none, none, none, []⟩ fs

/-- Modelled from the spec: decode dispatch of a PM profile message field. -/
def setPMField (st : EntityProfileDTO_PMProfileDTO) (f : RawField) :
    Except DecodeError EntityProfileDTO_PMProfileDTO :=
  if f.num = 1 then
    match f.payload with
    | .vint v => .ok { st with NumCores := some (uint64ToInt32 v) }
    | _ => .error .unexpectedWireType
  else if f.num = 2 then
    match f.payload with
    | .fixed32 b => .ok { st with CpuCoreSpeed := some (decodeFixed32 b) }
    | _ => .error .unexpectedWireType
  else .ok { st with XXX_unrecognized := st.XXX_unrecognized ++ f.raw }

/-- Modelled from the spec: decode of a PM profile message. -/
def EntityProfileDTO_PMProfileDTO.decode (bs : List Nat) :
    Except DecodeError EntityProfileDTO_PMProfileDTO :=
  match parseFields bs.length bs with
  | .error e => .error e
  | .ok fs => foldFields setPMField ⟨none, none, []⟩ fs

/-- Modelled from the spec: decode dispatch of a commodity profile field. -/
def setCPField (st : CommodityProfileDTO) (f : RawField) :
    Except DecodeError CommodityProfileDTO :=
  if f.num = 1 then
    match f.payload with
    | .vint v => .ok { st with CommodityType := some (uint64ToInt32 v) }
    | _ => .error .unexpectedWireType
  else if f.num = 2 then
    match f.payload with
    | .fixed32 b => .ok { st with Capacity := some (decodeFixed32 b) }
    | _ => .error .unexpectedWireType
  else if f.num = 3 then
    match f.payload with
    | .fixed32 b => .ok { st with ConsumedFactor := some (decodeFixed32 b) }
    | _ => .error .unexpectedWireType
  else if f.num = 4 then
    match f.payload with
    | .fixed32 b => .ok { st with Consumed := some (decodeFixed32 b) }
    | _ => .error .unexpectedWireType
  else if f.num = 5 then
    match f.payload with
    | .fixed32 b => .ok { st with Reservation := some (decodeFixed32 b) }
    | _ => .error .unexpectedWireType
  else if f.num = 6 then
    match f.payload with
    | .fixed32 b => .ok { st with Overhead := some (decodeFixed32 b) }
    | _ => .error .unexpectedWireType
  else .ok { st with XXX_unrecognized := st.XXX_unrecognized ++ f.raw }

/-- Modelled from the spec: the post-parse required-field check of a
commodity profile (`commodityType` is required). -/
def CommodityProfileDTO.finalizeDecode (st : CommodityProfileDTO) :
    Except DecodeError CommodityProfileDTO :=
  if st.CommodityType.isNone then .error (.missingRequiredField "commodityType")
  else .ok st

/-- Modelled from the spec: decode of a commodity profile. -/
def CommodityProfileDTO.decode (bs : List Nat) :
    Except DecodeError CommodityProfileDTO :=
  match parseFields bs.length bs with
  | .error e => .error e
  | .ok fs =>
    match foldFields setCPField ⟨none, none, none, none, none, none, []⟩ fs with
    | .error e => .error e
    | .ok st => st.finalizeDecode

/-- `_EntityProfileDTO_OneofUnmarshaler` from ProfileDTO.pb.go: on tag 8 or
9 it reports the field handled (`true`); a non-length-delimited wire type is
the bad-wire-type error (`MALFORMED_VARIANT`); otherwise the nested message
is decoded and installed, overwriting any earlier variant.  Any other tag is
reported unhandled (`false`). -/
def _EntityProfileDTO_OneofUnmarshaler (tag wire : Nat) (payload : WirePayload) :
    Bool × Except DecodeError (Option isEntityProfileDTO_VMOrPMProfileData) :=
  if tag = 8 then
    if wire ≠ 2 then (true, .error .malformedVariant)
    else
      match payload with
      | .lenDelim content =>
        match EntityProfileDTO_VMProfileDTO.decode content with
        | .ok v => (true, .ok (some (.VmProfileDTO v)))
        | .error e => (true, .error e)
      | _ => (true, .error .malformedVariant)
  else if tag = 9 then
    if wire ≠ 2 then (true, .error .malformedVariant)
    else
      match payload with
      | .lenDelim content =>
        match EntityProfileDTO_PMProfileDTO.decode content with
        | .ok p => (true, .ok (some (.PmProfileDTO p)))
        | .error e => (true, .error e)
      | _ => (true, .error .malformedVariant)
  else (false, .ok none)

/-- Modelled from the spec: decode dispatch of an entity profile field.
Regular fields first; tags not regular are offered to the oneof
unmarshaler; unhandled tags are preserved in `XXX_unrecognized`. -/
def setEPField (st : EntityProfileDTO) (f : RawField) :
    Except DecodeError EntityProfileDTO :=
  if f.num = 1 then
    match f.payload with
    | .lenDelim s => .ok { st with Id := some s }
    | _ => .error .unexpectedWireType
  else if f.num = 2 then
    match f.payload with
    | .lenDelim s => .ok { st with DisplayName := some s }
    | _ => .error .unexpectedWireType
  else if f.num = 3 then
    match f.payload with
    | .vint v => .ok { st with EntityType := some (uint64ToInt32 v) }
    | _ => .error .unexpectedWireType
  else if f.num = 4 then
    match f.payload with
    | .lenDelim s =>
      match CommodityProfileDTO.decode s with
      | .ok c => .ok { st with CommodityProfile := st.CommodityProfile ++ [c] }
      | .error e => .error e
    | _ => .error .unexpectedWireType
  else if f.num = 5 then
    match f.payload with
    | .lenDelim s => .ok { st with Model := some s }
    | _ => .error .unexpectedWireType
  else if f.num = 6 then
    match f.payload with
    | .lenDelim s => .ok { st with Vendor := some s }
    | _ => .error .unexpectedWireType
  else if f.num = 7 then
    match f.payload with
    | .lenDelim s => .ok { st with Description := some s }
    | _ => .error .unexpectedWireType
  else if f.num = 10 then
    match f.payload with
    | .vint v => .ok { st with EnableProvisionMatch := some (decodeBoolNat v) }
    | _ => .error .unexpectedWireType
  else if f.num = 11 then
    match f.payload with
    | .vint v => .ok { st with EnableResizeMatch := some (decodeBoolNat v) }
    | _ => .error .unexpectedWireType
  else if f.num = 12 then
    match f.payload with
    | .lenDelim s => .ok { st with EntityProperties := st.EntityProperties ++ [s] }
    | _ => .error .unexpectedWireType
  else
    match _EntityProfileDTO_OneofUnmarshaler f.num f.wire f.payload with
    | (true, .error e) => .error e
    | (true, .ok w) => .ok { st with VMOrPMProfileData := w }
    | (false, _) =>
      .ok { st with XXX_unrecognized := st.XXX_unrecognized ++ f.raw }

/-- The all-absent entity profile the decode loop starts from. -/
def epInit : EntityProfileDTO :=
  ⟨none, none, none, [], none, none, none, none, none, none, [], []⟩

/-- Modelled from the spec: the post-parse required-field check of an entity
profile (`id`, `displayName` and `entityType` are required). -/
def EntityProfileDTO.finalizeDecode (st : EntityProfileDTO) :
    Except DecodeError EntityProfileDTO :=
  if st.Id.isNone then .error (.missingRequiredField "id")
  else if st.DisplayName.isNone then .error (.missingRequiredField "displayName")
  else if st.EntityType.isNone then .error (.missingRequiredField "entityType")
  else .ok st

/-- Modelled from the spec: decode of an entity profile from a byte
stream. -/
def EntityProfileDTO.decode (bs : List Nat) :
    Except DecodeError EntityProfileDTO :=
  match parseFields bs.length bs with
  | .error e => .error e
  | .ok fs =>
    match foldFields setEPField epInit fs with
    | .error e => .error e
    | .ok st => st.finalizeDecode

/-- Modelled from the spec: decode dispatch of a deployment profile
field. -/
def setDPField (st : DeploymentProfileDTO) (f : RawField) :
    Except DecodeError DeploymentProfileDTO :=
  if f.num = 1 then
    match f.payload with
    | .lenDelim s => .ok { st with Id := some s }
    | _ => .error .unexpectedWireType
  else if f.num = 2 then
    match f.payload with
    | .lenDelim s => .ok { st with ProfileName := some s }
    | _ => .error .unexpectedWireType
  else if f.num = 3 then
    match f.payload with
    | .lenDelim s => .ok { st with ContextData := st.ContextData ++ [s] }
    | _ => .error .unexpectedWireType
  else if f.num = 4 then
    match f.payload with
    | .lenDelim s =>
      .ok { st with RelatedEntityProfileId := st.RelatedEntityProfileId ++ [s] }
    | _ => .error .unexpectedWireType
  else if f.num = 5 then
    match f.payload with
    | .lenDelim s => .ok { st with RelatedScopeId := st.RelatedScopeId ++ [s] }
    | _ => .error .unexpectedWireType
  else .ok { st with XXX_unrecognized := st.XXX_unrecognized ++ f.raw }

/-- Modelled from the spec: the post-parse required-field check of a
deployment profile (`id` and `profileName` are required). -/
def DeploymentProfileDTO.finalizeDecode (st : DeploymentProfileDTO) :
    Except DecodeError DeploymentProfileDTO :=
  if st.Id.isNone then .error (.missingRequiredField "id")
  else if st.ProfileName.isNone then .error (.missingRequiredField "profileName")
  else .ok st

/-- Modelled from the spec: decode of a deployment profile. -/
def DeploymentProfileDTO.decode (bs : List Nat) :
    Except DecodeError DeploymentProfileDTO :=
  match parseFields bs.length bs with
  | .error e => .error e
  | .ok fs =>
    match foldFields setDPField ⟨none, none, [], [], [], []⟩ fs with
    | .error e => .error e
    | .ok st => st.finalizeDecode

/-- A 32-bit pattern. -/
def fix32Ok (n : Nat) : Bool := decide (n < 4294967296)

/-- A well-formed `XXX_unrecognized` buffer: it parses as a field sequence
whose field numbers are all outside the message's known numbers (that is
exactly what the decoder can have put there). -/
def unknownOk (knownNums : List Nat) (u : List Nat) : Bool :=
  match parseFields u.length u with
  | .ok fs => fs.all (fun f => !(knownNums.contains f.num))
  | .error _ => false

theorem unknownOk_parse {knownNums : List Nat} {u : List Nat}
    (h : unknownOk knownNums u = true) :
    ∃ us, parseFields u.length u = .ok us ∧
      us.all (fun f => !(knownNums.contains f.num)) = true := by
  simp only [unknownOk] at h
  cases hp : parseFields u.length u with
  | error e => rw [hp] at h; exact absurd h (by simp)
  | ok us => rw [hp] at h; exact ⟨us, rfl, h⟩

/-- A valid VM profile message: `int32` values in range, float patterns
32-bit, unknown buffer well formed. -/
def EntityProfileDTO_VMProfileDTO.Valid
    (x : EntityProfileDTO_VMProfileDTO) : Bool :=
  x.NumVCPUs.all int32InRange && x.VCPUSpeed.all fix32Ok &&
    x.NumStorageConsumed.all int32InRange && unknownOk [1, 2, 3] x.XXX_unrecognized

/-- A valid PM profile message. -/
def EntityProfileDTO_PMProfileDTO.Valid
    (x : EntityProfileDTO_PMProfileDTO) : Bool :=
  x.NumCores.all int32InRange && x.CpuCoreSpeed.all fix32Ok &&
    unknownOk [1, 2] x.XXX_unrecognized

/-- A valid commodity profile: required `commodityType` present and in
range, float patterns 32-bit, unknown buffer well formed. -/
def CommodityProfileDTO.Valid (x : CommodityProfileDTO) : Bool :=
  x.CommodityType.isSome && x.CommodityType.all int32InRange &&
    x.Capacity.all fix32Ok && x.ConsumedFactor.all fix32Ok &&
    x.Consumed.all fix32Ok && x.Reservation.all fix32Ok &&
    x.Overhead.all fix32Ok && unknownOk [1, 2, 3, 4, 5, 6] x.XXX_unrecognized

/-- Validity of the oneof content. -/
def variantValid : Option isEntityProfileDTO_VMOrPMProfileData → Bool
  | none => true
  | some (.VmProfileDTO v) => v.Valid
  | some (.PmProfileDTO p) => p.Valid

/-- A valid entity profile: required fields present, nested messages valid,
unknown buffer well formed. -/
def EntityProfileDTO.Valid (x : EntityProfileDTO) : Bool :=
  x.Id.isSome && x.DisplayName.isSome && x.EntityType.isSome &&
    x.EntityType.all int32InRange &&
    x.CommodityProfile.all CommodityProfileDTO.Valid &&
    variantValid x.VMOrPMProfileData &&
    unknownOk [1, 2, 3, 4, 5, 6, 7, 8, 9, 10, 11, 12] x.XXX_unrecognized

/-- A valid deployment profile. -/
def DeploymentProfileDTO.Valid (x : DeploymentProfileDTO) : Bool :=
  x.Id.isSome && x.ProfileName.isSome && unknownOk [1, 2, 3, 4, 5] x.XXX_unrecognized

theorem mem_optField {α : Type} {f : RawField} {o : Option α} {mk : α → RawField}
    (h : f ∈ optField o mk) : ∃ v, o = some v ∧ f = mk v := by
  cases o with
  | none => simp [optField] at h
  | some v =>
    simp [optField] at h
    exact ⟨v, rfl, h⟩

theorem mem_repField {α : Type} {f : RawField} {l : List α} {mk : α → RawField}
    (h : f ∈ repField l mk) : ∃ v, v ∈ l ∧ f = mk v := by
  simpa [repField, eq_comm] using List.mem_map.mp h

theorem optOr_none {α : Type} (o : Option α) : Option.or o none = o := by
  cases o <;> rfl

/-- Shared skeleton: a message whose known fields each re-parse from their
raw bytes, followed by a well-formed unknown buffer, parses back to the
known fields followed by the unknown fields. -/
theorem parse_encode_skeleton {knowns : List RawField} {u : List Nat}
    {us : List RawField}
    (hk : ∀ f ∈ knowns, ∀ rest, parseField (f.raw ++ rest) = .ok (f, rest))
    (hu : parseFields u.length u = .ok us) :
    parseFields (rawBytes knowns ++ u).length (rawBytes knowns ++ u) =
      .ok (knowns ++ us) := by
  have h1 := parseFields_rawBytes_of_each hk
  have h2 := parseFields_append h1 hu
  exact parseFields_mono h2 _ (parseFields_le_length h2)

theorem foldVM_numVCPUs (o : Option Int) (st : EntityProfileDTO_VMProfileDTO)
    (rest : List RawField) (h : o.all int32InRange = true) :
    foldFields setVMField st
        (optField o (fun v => mkVarintField 1 (int32ToUint64 v)) ++ rest) =
      foldFields setVMField { st with NumVCPUs := Option.or o st.NumVCPUs } rest := by
  cases o with
  | none => rfl
  | some v =>
    simp only [Option.all_some] at h
    simp [optField, foldFields, setVMField, mkVarintField,
      uint64ToInt32_int32ToUint64 h, Option.or]

theorem foldVM_vCPUSpeed (o : Option Nat) (st : EntityProfileDTO_VMProfileDTO)
    (rest : List RawField) (h : o.all fix32Ok = true) :
    foldFields setVMField st
        (optField o (fun n => mkFixed32Field 2 (encodeFixed32 n)) ++ rest) =
      foldFields setVMField { st with VCPUSpeed := Option.or o st.VCPUSpeed } rest := by
  cases o with
  | none => rfl
  | some n =>
    simp only [Option.all_some, fix32Ok, decide_eq_true_eq] at h
    simp [optField, foldFields, setVMField, mkFixed32Field,
      decodeFixed32_encodeFixed32 h, Option.or]

theorem foldVM_numStorageConsumed (o : Option Int)
    (st : EntityProfileDTO_VMProfileDTO) (rest : List RawField)
    (h : o.all int32InRange = true) :
    foldFields setVMField st
        (optField o (fun v => mkVarintField 3 (int32ToUint64 v)) ++ rest) =
      foldFields setVMField
        { st with NumStorageConsumed := Option.or o st.NumStorageConsumed } rest := by
  cases o with
  | none => rfl
  | some v =>
    simp only [Option.all_some] at h
    simp [optField, foldFields, setVMField, mkVarintField,
      uint64ToInt32_int32ToUint64 h, Option.or]

theorem foldVM_unknown (us : List RawField) (st : EntityProfileDTO_VMProfileDTO)
    (h : us.all (fun f => !([1, 2, 3].contains f.num)) = true) :
    foldFields setVMField st us =
      .ok { st with XXX_unrecognized := st.XXX_unrecognized ++ rawBytes us } := by
  induction us generalizing st with
  | nil => simp [foldFields, rawBytes]
  | cons f us ih =>
    simp only [List.all_cons, Bool.and_eq_true] at h
    obtain ⟨hf, hus⟩ := h
    have hmem : ¬(f.num ∈ [1, 2, 3]) := by simpa using hf
    have hstep : setVMField st f =
        .ok { st with XXX_unrecognized := st.XXX_unrecognized ++ f.raw } := by
      have h1 : f.num ≠ 1 := fun hc => hmem (by simp [hc])
      have h2 : f.num ≠ 2 := fun hc => hmem (by simp [hc])
      have h3 : f.num ≠ 3 := fun hc => hmem (by simp [hc])
      simp only [setVMField, if_neg h1, if_neg h2, if_neg h3]
    simp only [foldFields, hstep]
    rw [ih _ hus]
    simp [rawBytes_cons, List.append_assoc]

/-- Round trip of the VM profile message. -/
theorem VMProfileDTO_decode_encode
    (x : EntityProfileDTO_VMProfileDTO) (h : x.Valid = true) :
    EntityProfileDTO_VMProfileDTO.decode x.encode = .ok x := by
  simp only [EntityProfileDTO_VMProfileDTO.Valid, Bool.and_eq_true] at h
  obtain ⟨⟨⟨h1, h2⟩, h3⟩, hu⟩ := h
  obtain ⟨us, hparse, hall⟩ := unknownOk_parse hu
  have hknown : ∀ f ∈ x.knownFields, ∀ rest,
      parseField (f.raw ++ rest) = .ok (f, rest) := by
    intro f hf rest
    simp only [EntityProfileDTO_VMProfileDTO.knownFields] at hf
    rcases List.mem_append.mp hf with hf' | hf'
    · rcases List.mem_append.mp hf' with hf'' | hf''
      · obtain ⟨v, -, rfl⟩ := mem_optField hf''
        exact parseField_mkVarintField _ _ _
      · obtain ⟨v, -, rfl⟩ := mem_optField hf''
        exact parseField_mkFixed32Field _ _ _ (encodeFixed32_length v)
    · obtain ⟨v, -, rfl⟩ := mem_optField hf'
      exact parseField_mkVarintField _ _ _
  have hp := parse_encode_skeleton hknown hparse
  simp only [EntityProfileDTO_VMProfileDTO.decode,
    EntityProfileDTO_VMProfileDTO.encode, hp]
  simp only [EntityProfileDTO_VMProfileDTO.knownFields, List.append_assoc]
  rw [foldVM_numVCPUs _ _ _ h1, foldVM_vCPUSpeed _ _ _ h2,
    foldVM_numStorageConsumed _ _ _ h3, foldVM_unknown _ _ hall]
  rw [parseFields_rawBytes hparse]
  simp [optOr_none]

theorem foldPM_numCores (o : Option Int) (st : EntityProfileDTO_PMProfileDTO)
    (rest : List RawField) (h : o.all int32InRange = true) :
    foldFields setPMField st
        (optField o (fun v => mkVarintField 1 (int32ToUint64 v)) ++ rest) =
      foldFields setPMField { st with NumCores := Option.or o st.NumCores } rest := by
  cases o with
  | none => rfl
  | some v =>
    simp only [Option.all_some] at h
    simp [optField, foldFields, setPMField, mkVarintField,
      uint64ToInt32_int32ToUint64 h, Option.or]

theorem foldPM_cpuCoreSpeed (o : Option Nat) (st : EntityProfileDTO_PMProfileDTO)
    (rest : List RawField) (h : o.all fix32Ok = true) :
    foldFields setPMField st
        (optField o (fun n => mkFixed32Field 2 (encodeFixed32 n)) ++ rest) =
      foldFields setPMField
        { st with CpuCoreSpeed := Option.or o st.CpuCoreSpeed } rest := by
  cases o with
  | none => rfl
  | some n =>
    simp only [Option.all_some, fix32Ok, decide_eq_true_eq] at h
    simp [optField, foldFields, setPMField, mkFixed32Field,
      decodeFixed32_encodeFixed32 h, Option.or]

theorem foldPM_unknown (us : List RawField) (st : EntityProfileDTO_PMProfileDTO)
    (h : us.all (fun f => !([1, 2].contains f.num)) = true) :
    foldFields setPMField st us =
      .ok { st with XXX_unrecognized := st.XXX_unrecognized ++ rawBytes us } := by
  induction us generalizing st with
  | nil => simp [foldFields, rawBytes]
  | cons f us ih =>
    simp only [List.all_cons, Bool.and_eq_true] at h
    obtain ⟨hf, hus⟩ := h
    have hmem : ¬(f.num ∈ [1, 2]) := by simpa using hf
    have hstep : setPMField st f =
        .ok { st with XXX_unrecognized := st.XXX_unrecognized ++ f.raw } := by
      have h1 : f.num ≠ 1 := fun hc => hmem (by simp [hc])
      have h2 : f.num ≠ 2 := fun hc => hmem (by simp [hc])
      simp only [setPMField, if_neg h1, if_neg h2]
    simp only [foldFields, hstep]
    rw [ih _ hus]
    simp [rawBytes_cons, List.append_assoc]

/-- Round trip of the PM profile message. -/
theorem PMProfileDTO_decode_encode
    (x : EntityProfileDTO_PMProfileDTO) (h : x.Valid = true) :
    EntityProfileDTO_PMProfileDTO.decode x.encode = .ok x := by
  simp only [EntityProfileDTO_PMProfileDTO.Valid, Bool.and_eq_true] at h
  obtain ⟨⟨h1, h2⟩, hu⟩ := h
  obtain ⟨us, hparse, hall⟩ := unknownOk_parse hu
  have hknown : ∀ f ∈ x.knownFields, ∀ rest,
      parseField (f.raw ++ rest) = .ok (f, rest) := by
    intro f hf rest
    simp only [EntityProfileDTO_PMProfileDTO.knownFields] at hf
    rcases List.mem_append.mp hf with hf' | hf'
    · obtain ⟨v, -, rfl⟩ := mem_optField hf'
      exact parseField_mkVarintField _ _ _
    · obtain ⟨v, -, rfl⟩ := mem_optField hf'
      exact parseField_mkFixed32Field _ _ _ (encodeFixed32_length v)
  have hp := parse_encode_skeleton hknown hparse
  simp only [EntityProfileDTO_PMProfileDTO.decode,
    EntityProfileDTO_PMProfileDTO.encode, hp]
  simp only [EntityProfileDTO_PMProfileDTO.knownFields, List.append_assoc]
  rw [foldPM_numCores _ _ _ h1, foldPM_cpuCoreSpeed _ _ _ h2,
    foldPM_unknown _ _ hall]
  rw [parseFields_rawBytes hparse]
  simp [optOr_none]

theorem foldCP_commodityType (o : Option CommodityDTO_CommodityType)
    (st : CommodityProfileDTO) (rest : List RawField)
    (h : o.all int32InRange = true) :
    foldFields setCPField st
        (optField o (fun v => mkVarintField 1 (int32ToUint64 v)) ++ rest) =
      foldFields setCPField
        { st with CommodityType := Option.or o st.CommodityType } rest := by
  cases o with
  | none => rfl
  | some v =>
    simp only [Option.all_some] at h
    simp [optField, foldFields, setCPField, mkVarintField,
      uint64ToInt32_int32ToUint64 h, Option.or]

theorem foldCP_capacity (o : Option Nat) (st : CommodityProfileDTO)
    (rest : List RawField) (h : o.all fix32Ok = true) :
    foldFields setCPField st
        (optField o (fun n => mkFixed32Field 2 (encodeFixed32 n)) ++ rest) =
      foldFields setCPField { st with Capacity := Option.or o st.Capacity } rest := by
  cases o with
  | none => rfl
  | some n =>
    simp only [Option.all_some, fix32Ok, decide_eq_true_eq] at h
    simp [optField, foldFields, setCPField, mkFixed32Field,
      decodeFixed32_encodeFixed32 h, Option.or]

theorem foldCP_consumedFactor (o : Option Nat) (st : CommodityProfileDTO)
    (rest : List RawField) (h : o.all fix32Ok = true) :
    foldFields setCPField st
        (optField o (fun n => mkFixed32Field 3 (encodeFixed32 n)) ++ rest) =
      foldFields setCPField
        { st with ConsumedFactor := Option.or o st.ConsumedFactor } rest := by
  cases o with
  | none => rfl
  | some n =>
    simp only [Option.all_some, fix32Ok, decide_eq_true_eq] at h
    simp [optField, foldFields, setCPField, mkFixed32Field,
      decodeFixed32_encodeFixed32 h, Option.or]

theorem foldCP_consumed (o : Option Nat) (st : CommodityProfileDTO)
    (rest : List RawField) (h : o.all fix32Ok = true) :
    foldFields setCPField st
        (optField o (fun n => mkFixed32Field 4 (encodeFixed32 n)) ++ rest) =
      foldFields setCPField { st with Consumed := Option.or o st.Consumed } rest := by
  cases o with
  | none => rfl
  | some n =>
    simp only [Option.all_some, fix32Ok, decide_eq_true_eq] at h
    simp [optField, foldFields, setCPField, mkFixed32Field,
      decodeFixed32_encodeFixed32 h, Option.or]

theorem foldCP_reservation (o : Option Nat) (st : CommodityProfileDTO)
    (rest : List RawField) (h : o.all fix32Ok = true) :
    foldFields setCPField st
        (optField o (fun n => mkFixed32Field 5 (encodeFixed32 n)) ++ rest) =
      foldFields setCPField
        { st with Reservation := Option.or o st.Reservation } rest := by
  cases o with
  | none => rfl
  | some n =>
    simp only [Option.all_some, fix32Ok, decide_eq_true_eq] at h
    simp [optField, foldFields, setCPField, mkFixed32Field,
      decodeFixed32_encodeFixed32 h, Option.or]

theorem foldCP_overhead (o : Option Nat) (st : CommodityProfileDTO)
    (rest : List RawField) (h : o.all fix32Ok = true) :
    foldFields setCPField st
        (optField o (fun n => mkFixed32Field 6 (encodeFixed32 n)) ++ rest) =
      foldFields setCPField { st with Overhead := Option.or o st.Overhead } rest := by
  cases o with
  | none => rfl
  | some n =>
    simp only [Option.all_some, fix32Ok, decide_eq_true_eq] at h
    simp [optField, foldFields, setCPField, mkFixed32Field,
      decodeFixed32_encodeFixed32 h, Option.or]

theorem foldCP_unknown (us : List RawField) (st : CommodityProfileDTO)
    (h : us.all (fun f => !([1, 2, 3, 4, 5, 6].contains f.num)) = true) :
    foldFields setCPField st us =
      .ok { st with XXX_unrecognized := st.XXX_unrecognized ++ rawBytes us } := by
  induction us generalizing st with
  | nil => simp [foldFields, rawBytes]
  | cons f us ih =>
    simp only [List.all_cons, Bool.and_eq_true] at h
    obtain ⟨hf, hus⟩ := h
    have hmem : ¬(f.num ∈ [1, 2, 3, 4, 5, 6]) := by simpa using hf
    have hstep : setCPField st f =
        .ok { st with XXX_unrecognized := st.XXX_unrecognized ++ f.raw } := by
      have h1 : f.num ≠ 1 := fun hc => hmem (by simp [hc])
      have h2 : f.num ≠ 2 := fun hc => hmem (by simp [hc])
      have h3 : f.num ≠ 3 := fun hc => hmem (by simp [hc])
      have h4 : f.num ≠ 4 := fun hc => hmem (by simp [hc])
      have h5 : f.num ≠ 5 := fun hc => hmem (by simp [hc])
      have h6 : f.num ≠ 6 := fun hc => hmem (by simp [hc])
      simp only [setCPField, if_neg h1, if_neg h2, if_neg h3, if_neg h4,
        if_neg h5, if_neg h6]
    simp only [foldFields, hstep]
    rw [ih _ hus]
    simp [rawBytes_cons, List.append_assoc]

/-- Round trip of the commodity profile message. -/
theorem CommodityProfileDTO_decode_encode (x : CommodityProfileDTO)
    (h : x.Valid = true) : CommodityProfileDTO.decode x.encode = .ok x := by
  simp only [CommodityProfileDTO.Valid, Bool.and_eq_true] at h
  obtain ⟨⟨⟨⟨⟨⟨⟨hreq, h1⟩, h2⟩, h3⟩, h4⟩, h5⟩, h6⟩, hu⟩ := h
  obtain ⟨us, hparse, hall⟩ := unknownOk_parse hu
  have hknown : ∀ f ∈ x.knownFields, ∀ rest,
      parseField (f.raw ++ rest) = .ok (f, rest) := by
    intro f hf rest
    simp only [CommodityProfileDTO.knownFields] at hf
    rcases List.mem_append.mp hf with hf' | hf'
    · rcases List.mem_append.mp hf' with hf'' | hf''
      · rcases List.mem_append.mp hf'' with hf₃ | hf₃
        · rcases List.mem_append.mp hf₃ with hf₄ | hf₄
          · rcases List.mem_append.mp hf₄ with hf₅ | hf₅
            · obtain ⟨v, -, rfl⟩ := mem_optField hf₅
              exact parseField_mkVarintField _ _ _
            · obtain ⟨v, -, rfl⟩ := mem_optField hf₅
              exact parseField_mkFixed32Field _ _ _ (encodeFixed32_length v)
          · obtain ⟨v, -, rfl⟩ := mem_optField hf₄
            exact parseField_mkFixed32Field _ _ _ (encodeFixed32_length v)
        · obtain ⟨v, -, rfl⟩ := mem_optField hf₃
          exact parseField_mkFixed32Field _ _ _ (encodeFixed32_length v)
      · obtain ⟨v, -, rfl⟩ := mem_optField hf''
        exact parseField_mkFixed32Field _ _ _ (encodeFixed32_length v)
    · obtain ⟨v, -, rfl⟩ := mem_optField hf'
      exact parseField_mkFixed32Field _ _ _ (encodeFixed32_length v)
  have hp := parse_encode_skeleton hknown hparse
  simp only [CommodityProfileDTO.decode, CommodityProfileDTO.encode, hp]
  simp only [CommodityProfileDTO.knownFields, List.append_assoc]
  rw [foldCP_commodityType _ _ _ h1, foldCP_capacity _ _ _ h2,
    foldCP_consumedFactor _ _ _ h3, foldCP_consumed _ _ _ h4,
    foldCP_reservation _ _ _ h5, foldCP_overhead _ _ _ h6,
    foldCP_unknown _ _ hall]
  rw [parseFields_rawBytes hparse]
  simp only [optOr_none, List.nil_append]
  simp only [CommodityProfileDTO.finalizeDecode]
  have hnone : x.CommodityType.isNone = false := by
    cases hct : x.CommodityType with
    | none => rw [hct] at hreq; simp at hreq
    | some ct => rfl
  simp [hnone]

theorem foldDP_id (o : Option (List Nat)) (st : DeploymentProfileDTO)
    (rest : List RawField) :
    foldFields setDPField st (optField o (mkLenField 1) ++ rest) =
      foldFields setDPField { st with Id := Option.or o st.Id } rest := by
  cases o with
  | none => rfl
  | some s => simp [optField, foldFields, setDPField, mkLenField, Option.or]

theorem foldDP_profileName (o : Option (List Nat)) (st : DeploymentProfileDTO)
    (rest : List RawField) :
    foldFields setDPField st (optField o (mkLenField 2) ++ rest) =
      foldFields setDPField { st with ProfileName := Option.or o st.ProfileName } rest := by
  cases o with
  | none => rfl
  | some s => simp [optField, foldFields, setDPField, mkLenField, Option.or]

theorem foldDP_contextData (l : List (List Nat)) (st : DeploymentProfileDTO)
    (rest : List RawField) :
    foldFields setDPField st (repField l (mkLenField 3) ++ rest) =
      foldFields setDPField { st with ContextData := st.ContextData ++ l } rest := by
  induction l generalizing st with
  | nil => simp [repField]
  | cons s l ih =>
    simp only [repField, List.map_cons, List.cons_append, foldFields, setDPField,
      mkLenField]
    norm_num
    simp only [repField] at ih
    rw [ih]
    simp [List.append_assoc]

theorem foldDP_relatedEntityProfileId (l : List (List Nat))
    (st : DeploymentProfileDTO) (rest : List RawField) :
    foldFields setDPField st (repField l (mkLenField 4) ++ rest) =
      foldFields setDPField
        { st with RelatedEntityProfileId := st.RelatedEntityProfileId ++ l } rest := by
  induction l generalizing st with
  | nil => simp [repField]
  | cons s l ih =>
    simp only [repField, List.map_cons, List.cons_append, foldFields, setDPField,
      mkLenField]
    norm_num
    simp only [repField] at ih
    rw [ih]
    simp [List.append_assoc]

theorem foldDP_relatedScopeId (l : List (List Nat)) (st : DeploymentProfileDTO)
    (rest : List RawField) :
    foldFields setDPField st (repField l (mkLenField 5) ++ rest) =
      foldFields setDPField
        { st with RelatedScopeId := st.RelatedScopeId ++ l } rest := by
  induction l generalizing st with
  | nil => simp [repField]
  | cons s l ih =>
    simp only [repField, List.map_cons, List.cons_append, foldFields, setDPField,
      mkLenField]
    norm_num
    simp only [repField] at ih
    rw [ih]
    simp [List.append_assoc]

theorem foldDP_unknown (us : List RawField) (st : DeploymentProfileDTO)
    (h : us.all (fun f => !([1, 2, 3, 4, 5].contains f.num)) = true) :
    foldFields setDPField st us =
      .ok { st with XXX_unrecognized := st.XXX_unrecognized ++ rawBytes us } := by
  induction us generalizing st with
  | nil => simp [foldFields, rawBytes]
  | cons f us ih =>
    simp only [List.all_cons, Bool.and_eq_true] at h
    obtain ⟨hf, hus⟩ := h
    have hmem : ¬(f.num ∈ [1, 2, 3, 4, 5]) := by simpa using hf
    have hstep : setDPField st f =
        .ok { st with XXX_unrecognized := st.XXX_unrecognized ++ f.raw } := by
      have h1 : f.num ≠ 1 := fun hc => hmem (by simp [hc])
      have h2 : f.num ≠ 2 := fun hc => hmem (by simp [hc])
      have h3 : f.num ≠ 3 := fun hc => hmem (by simp [hc])
      have h4 : f.num ≠ 4 := fun hc => hmem (by simp [hc])
      have h5 : f.num ≠ 5 := fun hc => hmem (by simp [hc])
      simp only [setDPField, if_neg h1, if_neg h2, if_neg h3, if_neg h4, if_neg h5]
    simp only [foldFields, hstep]
    rw [ih _ hus]
    simp [rawBytes_cons, List.append_assoc]

/-- Round trip of the deployment profile message. -/
theorem DeploymentProfileDTO_decode_encode (x : DeploymentProfileDTO)
    (h : x.Valid = true) : DeploymentProfileDTO.decode x.encode = .ok x := by
  simp only [DeploymentProfileDTO.Valid, Bool.and_eq_true] at h
  obtain ⟨⟨hid, hpn⟩, hu⟩ := h
  obtain ⟨us, hparse, hall⟩ := unknownOk_parse hu
  have hknown : ∀ f ∈ x.knownFields, ∀ rest,
      parseField (f.raw ++ rest) = .ok (f, rest) := by
    intro f hf rest
    simp only [DeploymentProfileDTO.knownFields] at hf
    rcases List.mem_append.mp hf with hf' | hf'
    · rcases List.mem_append.mp hf' with hf'' | hf''
      · rcases List.mem_append.mp hf'' with hf₃ | hf₃
        · rcases List.mem_append.mp hf₃ with hf₄ | hf₄
          · obtain ⟨v, -, rfl⟩ := mem_optField hf₄
            exact parseField_mkLenField _ _ _
          · obtain ⟨v, -, rfl⟩ := mem_optField hf₄
            exact parseField_mkLenField _ _ _
        · obtain ⟨v, -, rfl⟩ := mem_repField hf₃
          exact parseField_mkLenField _ _ _
      · obtain ⟨v, -, rfl⟩ := mem_repField hf''
        exact parseField_mkLenField _ _ _
    · obtain ⟨v, -, rfl⟩ := mem_repField hf'
      exact parseField_mkLenField _ _ _
  have hp := parse_encode_skeleton hknown hparse
  simp only [DeploymentProfileDTO.decode, DeploymentProfileDTO.encode, hp]
  simp only [DeploymentProfileDTO.knownFields, List.append_assoc]
  rw [foldDP_id, foldDP_profileName, foldDP_contextData,
    foldDP_relatedEntityProfileId, foldDP_relatedScopeId, foldDP_unknown _ _ hall]
  rw [parseFields_rawBytes hparse]
  simp only [optOr_none, List.nil_append]
  simp only [DeploymentProfileDTO.finalizeDecode]
  have hidF : x.Id.isNone = false := by
    cases hc : x.Id with
    | none => rw [hc] at hid; simp at hid
    | some v => rfl
  have hpnF : x.ProfileName.isNone = false := by
    cases hc : x.ProfileName with
    | none => rw [hc] at hpn; simp at hpn
    | some v => rfl
  simp [hidF, hpnF]

theorem foldEP_id (o : Option (List Nat)) (st : EntityProfileDTO)
    (rest : List RawField) :
    foldFields setEPField st (optField o (mkLenField 1) ++ rest) =
      foldFields setEPField { st with Id := Option.or o st.Id } rest := by
  cases o with
  | none => rfl
  | some s => simp [optField, foldFields, setEPField, mkLenField, Option.or]

theorem foldEP_displayName (o : Option (List Nat)) (st : EntityProfileDTO)
    (rest : List RawField) :
    foldFields setEPField st (optField o (mkLenField 2) ++ rest) =
      foldFields setEPField { st with DisplayName := Option.or o st.DisplayName } rest := by
  cases o with
  | none => rfl
  | some s => simp [optField, foldFields, setEPField, mkLenField, Option.or]

theorem foldEP_entityType (o : Option EntityDTO_EntityType)
    (st : EntityProfileDTO) (rest : List RawField)
    (h : o.all int32InRange = true) :
    foldFields setEPField st
        (optField o (fun v => mkVarintField 3 (int32ToUint64 v)) ++ rest) =
      foldFields setEPField { st with EntityType := Option.or o st.EntityType } rest := by
  cases o with
  | none => rfl
  | some v =>
    simp only [Option.all_some] at h
    simp [optField, foldFields, setEPField, mkVarintField,
      uint64ToInt32_int32ToUint64 h, Option.or]

theorem foldEP_commodities (cs : List CommodityProfileDTO)
    (st : EntityProfileDTO) (rest : List RawField)
    (h : cs.all CommodityProfileDTO.Valid = true) :
    foldFields setEPField st
        (repField cs (fun c => mkLenField 4 c.encode) ++ rest) =
      foldFields setEPField
        { st with CommodityProfile := st.CommodityProfile ++ cs } rest := by
  induction cs generalizing st with
  | nil => simp [repField]
  | cons c cs ih =>
    simp only [List.all_cons, Bool.and_eq_true] at h
    obtain ⟨hc, hcs⟩ := h
    have hstep : setEPField st (mkLenField 4 c.encode) =
        .ok { st with CommodityProfile := st.CommodityProfile ++ [c] } := by
      simp only [setEPField, mkLenField]
      norm_num [CommodityProfileDTO_decode_encode c hc]
    simp only [repField, List.map_cons, List.cons_append, List.append_eq,
      foldFields, hstep]
    simp only [repField] at ih
    rw [ih _ hcs]
    simp [List.append_assoc]

theorem foldEP_model (o : Option (List Nat)) (st : EntityProfileDTO)
    (rest : List RawField) :
    foldFields setEPField st (optField o (mkLenField 5) ++ rest) =
      foldFields setEPField { st with Model := Option.or o st.Model } rest := by
  cases o with
  | none => rfl
  | some s => simp [optField, foldFields, setEPField, mkLenField, Option.or]

theorem foldEP_vendor (o : Option (List Nat)) (st : EntityProfileDTO)
    (rest : List RawField) :
    foldFields setEPField st (optField o (mkLenField 6) ++ rest) =
      foldFields setEPField { st with Vendor := Option.or o st.Vendor } rest := by
  cases o with
  | none => rfl
  | some s => simp [optField, foldFields, setEPField, mkLenField, Option.or]

theorem foldEP_description (o : Option (List Nat)) (st : EntityProfileDTO)
    (rest : List RawField) :
    foldFields setEPField st (optField o (mkLenField 7) ++ rest) =
      foldFields setEPField { st with Description := Option.or o st.Description } rest := by
  cases o with
  | none => rfl
  | some s => simp [optField, foldFields, setEPField, mkLenField, Option.or]

theorem foldEP_variant (v : Option isEntityProfileDTO_VMOrPMProfileData)
    (st : EntityProfileDTO) (rest : List RawField)
    (h : variantValid v = true) :
    foldFields setEPField st (variantFields v ++ rest) =
      foldFields setEPField
        { st with VMOrPMProfileData := Option.or v st.VMOrPMProfileData } rest := by
  cases v with
  | none => rfl
  | some w =>
    cases w with
    | VmProfileDTO vm =>
      simp only [variantValid] at h
      have hstep : setEPField st (mkLenField 8 vm.encode) =
          .ok { st with VMOrPMProfileData := some (.VmProfileDTO vm) } := by
        simp only [setEPField, mkLenField, _EntityProfileDTO_OneofUnmarshaler]
        norm_num [VMProfileDTO_decode_encode vm h]
      simp only [variantFields, List.cons_append, List.nil_append, List.append_eq,
        foldFields, hstep]
      simp [Option.or]
    | PmProfileDTO pm =>
      simp only [variantValid] at h
      have hstep : setEPField st (mkLenField 9 pm.encode) =
          .ok { st with VMOrPMProfileData := some (.PmProfileDTO pm) } := by
        simp only [setEPField, mkLenField, _EntityProfileDTO_OneofUnmarshaler]
        norm_num [PMProfileDTO_decode_encode pm h]
      simp only [variantFields, List.cons_append, List.nil_append, List.append_eq,
        foldFields, hstep]
      simp [Option.or]

theorem foldEP_enableProvisionMatch (o : Option Bool) (st : EntityProfileDTO)
    (rest : List RawField) :
    foldFields setEPField st
        (optField o (fun b => mkVarintField 10 (encodeBoolNat b)) ++ rest) =
      foldFields setEPField
        { st with EnableProvisionMatch := Option.or o st.EnableProvisionMatch } rest := by
  cases o with
  | none => rfl
  | some b =>
    simp [optField, foldFields, setEPField, mkVarintField,
      decodeBoolNat_encodeBoolNat b, Option.or]

theorem foldEP_enableResizeMatch (o : Option Bool) (st : EntityProfileDTO)
    (rest : List RawField) :
    foldFields setEPField st
        (optField o (fun b => mkVarintField 11 (encodeBoolNat b)) ++ rest) =
      foldFields setEPField
        { st with EnableResizeMatch := Option.or o st.EnableResizeMatch } rest := by
  cases o with
  | none => rfl
  | some b =>
    simp [optField, foldFields, setEPField, mkVarintField,
      decodeBoolNat_encodeBoolNat b, Option.or]

theorem foldEP_entityProperties (l : List (List Nat)) (st : EntityProfileDTO)
    (rest : List RawField) :
    foldFields setEPField st (repField l (mkLenField 12) ++ rest) =
      foldFields setEPField
        { st with EntityProperties := st.EntityProperties ++ l } rest := by
  induction l generalizing st with
  | nil => simp [repField]
  | cons s l ih =>
    simp only [repField, List.map_cons, List.cons_append, foldFields, setEPField,
      mkLenField]
    norm_num
    simp only [repField] at ih
    rw [ih]
    simp [List.append_assoc]

theorem foldEP_unknown (us : List RawField) (st : EntityProfileDTO)
    (h : us.all
      (fun f => !([1, 2, 3, 4, 5, 6, 7, 8, 9, 10, 11, 12].contains f.num)) = true) :
    foldFields setEPField st us =
      .ok { st with XXX_unrecognized := st.XXX_unrecognized ++ rawBytes us } := by
  induction us generalizing st with
  | nil => simp [foldFields, rawBytes]
  | cons f us ih =>
    simp only [List.all_cons, Bool.and_eq_true] at h
    obtain ⟨hf, hus⟩ := h
    have hmem : ¬(f.num ∈ [1, 2, 3, 4, 5, 6, 7, 8, 9, 10, 11, 12]) := by simpa using hf
    have h1 : f.num ≠ 1 := fun hc => hmem (by simp [hc])
    have h2 : f.num ≠ 2 := fun hc => hmem (by simp [hc])
    have h3 : f.num ≠ 3 := fun hc => hmem (by simp [hc])
    have h4 : f.num ≠ 4 := fun hc => hmem (by simp [hc])
    have h5 : f.num ≠ 5 := fun hc => hmem (by simp [hc])
    have h6 : f.num ≠ 6 := fun hc => hmem (by simp [hc])
    have h7 : f.num ≠ 7 := fun hc => hmem (by simp [hc])
    have h8 : f.num ≠ 8 := fun hc => hmem (by simp [hc])
    have h9 : f.num ≠ 9 := fun hc => hmem (by simp [hc])
    have h10 : f.num ≠ 10 := fun hc => hmem (by simp [hc])
    have h11 : f.num ≠ 11 := fun hc => hmem (by simp [hc])
    have h12 : f.num ≠ 12 := fun hc => hmem (by simp [hc])
    have hstep : setEPField st f =
        .ok { st with XXX_unrecognized := st.XXX_unrecognized ++ f.raw } := by
      simp only [setEPField, if_neg h1, if_neg h2, if_neg h3, if_neg h4, if_neg h5,
        if_neg h6, if_neg h7, if_neg h10, if_neg h11, if_neg h12,
        _EntityProfileDTO_OneofUnmarshaler, if_neg h8, if_neg h9]
    simp only [foldFields, hstep]
    rw [ih _ hus]
    simp [rawBytes_cons, List.append_assoc]

/-- Every known wire field an entity profile emits parses back from its own
raw bytes, unconditionally. -/
theorem EntityProfileDTO.knownFields_selfParse (x : EntityProfileDTO) :
    ∀ f ∈ x.knownFields, ∀ rest, parseField (f.raw ++ rest) = .ok (f, rest) := by
    intro f hf rest
    simp only [EntityProfileDTO.knownFields] at hf
    rcases List.mem_append.mp hf with hf₁ | hf₁
    · rcases List.mem_append.mp hf₁ with hf₂ | hf₂
      · rcases List.mem_append.mp hf₂ with hf₃ | hf₃
        · rcases List.mem_append.mp hf₃ with hf₄ | hf₄
          · rcases List.mem_append.mp hf₄ with hf₅ | hf₅
            · rcases List.mem_append.mp hf₅ with hf₆ | hf₆
              · rcases List.mem_append.mp hf₆ with hf₇ | hf₇
                · rcases List.mem_append.mp hf₇ with hf₈ | hf₈
                  · rcases List.mem_append.mp hf₈ with hf₉ | hf₉
                    · rcases List.mem_append.mp hf₉ with hf₁₀ | hf₁₀
                      · obtain ⟨v, -, rfl⟩ := mem_optField hf₁₀
                        exact parseField_mkLenField _ _ _
                      · obtain ⟨v, -, rfl⟩ := mem_optField hf₁₀
                        exact parseField_mkLenField _ _ _
                    · obtain ⟨v, -, rfl⟩ := mem_optField hf₉
                      exact parseField_mkVarintField _ _ _
                  · obtain ⟨v, -, rfl⟩ := mem_repField hf₈
                    exact parseField_mkLenField _ _ _
                · obtain ⟨v, -, rfl⟩ := mem_optField hf₇
                  exact parseField_mkLenField _ _ _
              · obtain ⟨v, -, rfl⟩ := mem_optField hf₆
                exact parseField_mkLenField _ _ _
            · obtain ⟨v, -, rfl⟩ := mem_optField hf₅
              exact parseField_mkLenField _ _ _
          · cases hvv : x.VMOrPMProfileData with
            | none => rw [hvv] at hf₄; simp [variantFields] at hf₄
            | some w =>
              rw [hvv] at hf₄
              cases w with
              | VmProfileDTO vm =>
                simp only [variantFields, List.mem_singleton] at hf₄
                subst hf₄
                exact parseField_mkLenField _ _ _
              | PmProfileDTO pm =>
                simp only [variantFields, List.mem_singleton] at hf₄
                subst hf₄
                exact parseField_mkLenField _ _ _
        · obtain ⟨v, -, rfl⟩ := mem_optField hf₃
          exact parseField_mkVarintField _ _ _
      · obtain ⟨v, -, rfl⟩ := mem_optField hf₂
        exact parseField_mkVarintField _ _ _
    · obtain ⟨v, -, rfl⟩ := mem_repField hf₁
      exact parseField_mkLenField _ _ _

/-- Round trip of the entity profile message. -/
theorem EntityProfileDTO_decode_encode (x : EntityProfileDTO)
    (h : x.Valid = true) : EntityProfileDTO.decode x.encode = .ok x := by
  simp only [EntityProfileDTO.Valid, Bool.and_eq_true] at h
  obtain ⟨⟨⟨⟨⟨⟨hid, hdn⟩, het⟩, hetr⟩, hcs⟩, hv⟩, hu⟩ := h
  obtain ⟨us, hparse, hall⟩ := unknownOk_parse hu
  have hp := parse_encode_skeleton (EntityProfileDTO.knownFields_selfParse x) hparse
  simp only [EntityProfileDTO.decode, EntityProfileDTO.encode, hp]
  simp only [EntityProfileDTO.knownFields, List.append_assoc]
  rw [foldEP_id, foldEP_displayName, foldEP_entityType _ _ _ hetr,
    foldEP_commodities _ _ _ hcs, foldEP_model, foldEP_vendor, foldEP_description,
    foldEP_variant _ _ _ hv, foldEP_enableProvisionMatch, foldEP_enableResizeMatch,
    foldEP_entityProperties, foldEP_unknown _ _ hall]
  simp only [parseFields_rawBytes hparse]
  simp only [epInit, optOr_none, List.nil_append]
  simp only [EntityProfileDTO.finalizeDecode]
  have hidF : x.Id.isNone = false := by
    cases hc : x.Id with
    | none => rw [hc] at hid; simp at hid
    | some v => rfl
  have hdnF : x.DisplayName.isNone = false := by
    cases hc : x.DisplayName with
    | none => rw [hc] at hdn; simp at hdn
    | some v => rfl
  have hetF : x.EntityType.isNone = false := by
    cases hc : x.EntityType with
    | none => rw [hc] at het; simp at het
    | some v => rfl
  simp [hidF, hdnF, hetF]

/-- Modelled from the spec: the consumer-side view of a commodity profile
used by the §4.4 derivation rules.  These helpers are not present in the
repository source (only their data carrier is); the spec defines them as the
canonical formulas.  The `float32` scalars are represented as exact
rationals, which is adequate for the spec's derivation instances (both are
exact in binary floating point as well). -/
structure CommodityProfileQ where
  commodityType : Option CommodityDTO_CommodityType
  capacity : Option Rat
  consumedFactor : Option Rat
  consumed : Option Rat
  reservation : Option Rat
  overhead : Option Rat
deriving DecidableEq

/-- Modelled from the spec (§4.4): `consumed` if present, else
`capacity × consumedFactor` if both present, else absent. -/
def derivedConsumed (p : CommodityProfileQ) : Option Rat :=
  match p.consumed with
  | some c => some c
  | none =>
    match p.capacity, p.consumedFactor with
    | some cap, some f => some (cap * f)
    | _, _ => none

/-- Modelled from the spec (§4.4): `capacity − overhead` if capacity is
present, treating absent overhead as 0; absent otherwise. -/
def usableCapacity (p : CommodityProfileQ) : Option Rat :=
  match p.capacity with
  | some cap => some (cap - (p.overhead.getD 0))
  | none => none

/-- The dynamic value of the oneof interface as scrutinised by the type
switches of the oneof marshaler and sizer in ProfileDTO.pb.go: one of the
two wrapper types, the nil interface, or a value of a dynamic type other
than the recognized wrappers (the `default` branch of the switch). -/
inductive OneofDynamicValue where
  | vmWrapper (v : EntityProfileDTO_VMProfileDTO)
  | pmWrapper (p : EntityProfileDTO_PMProfileDTO)
  | nilInterface
  | unexpectedType
deriving DecidableEq

/-- `_EntityProfileDTO_OneofMarshaler` from ProfileDTO.pb.go: emits the key
`8 <<< 3 ||| WireBytes` (resp. 9) followed by the length-prefixed nested
message for the set wrapper, nothing for the nil interface, and returns an
error (`fmt.Errorf`) for an unexpected dynamic type. -/
def _EntityProfileDTO_OneofMarshaler (d : OneofDynamicValue) :
    Except String (List Nat) :=
  match d with
  | .vmWrapper v =>
    .ok (encodeKey 8 2 ++ encodeVarint v.encode.length ++ v.encode)
  | .pmWrapper p =>
    .ok (encodeKey 9 2 ++ encodeVarint p.encode.length ++ p.encode)
  | .nilInterface => .ok []
  | .unexpectedType =>
    .error "EntityProfileDTO.VMOrPMProfileData has unexpected type"

/-- `_EntityProfileDTO_OneofSizer` from ProfileDTO.pb.go: the wire size of
the emitted field for each wrapper, 0 for the nil interface; on an
unexpected dynamic type the Go code panics, modelled as `none`. -/
def _EntityProfileDTO_OneofSizer (d : OneofDynamicValue) : Option Nat :=
  match d with
  | .vmWrapper v =>
    some ((encodeKey 8 2).length + (encodeVarint v.encode.length).length
      + v.encode.length)
  | .pmWrapper p =>
    some ((encodeKey 9 2).length + (encodeVarint p.encode.length).length
      + p.encode.length)
  | .nilInterface => some 0
  | .unexpectedType => none

/-- The embedding of the (closed) oneof interface values into the dynamic
values seen by the marshaler's type switch. -/
def dynOfVariant (v : Option isEntityProfileDTO_VMOrPMProfileData) :
    OneofDynamicValue :=
  match v with
  | none => .nilInterface
  | some (.VmProfileDTO vm) => .vmWrapper vm
  | some (.PmProfileDTO pm) => .pmWrapper pm

/-- On the values the closed interface can actually hold, the oneof
marshaler emits exactly the bytes of `variantFields`: the wire emission used
by the whole-message encoder agrees with the source's oneof marshaler. -/
theorem oneofMarshaler_agrees_variantFields
    (v : Option isEntityProfileDTO_VMOrPMProfileData) :
    _EntityProfileDTO_OneofMarshaler (dynOfVariant v) =
      .ok (rawBytes (variantFields v)) := by
  cases v with
  | none => rfl
  | some w =>
    cases w with
    | VmProfileDTO vm =>
      simp [dynOfVariant, _EntityProfileDTO_OneofMarshaler, variantFields,
        rawBytes, mkLenField, List.append_assoc]
    | PmProfileDTO pm =>
      simp [dynOfVariant, _EntityProfileDTO_OneofMarshaler, variantFields,
        rawBytes, mkLenField, List.append_assoc]

/-- A field is one of the two variant wire tags. -/
def isVariantTag (f : RawField) : Bool := f.num == 8 || f.num == 9

/-- Full characterization of the successful outcomes of the entity-profile
decode dispatch, one disjunct per branch. -/
theorem setEPField_spec {st st' : EntityProfileDTO} {f : RawField}
    (h : setEPField st f = .ok st') :
    (f.num = 1 ∧ ∃ s, f.payload = .lenDelim s ∧ st' = { st with Id := some s }) ∨
    (f.num = 2 ∧ ∃ s, f.payload = .lenDelim s ∧
      st' = { st with DisplayName := some s }) ∨
    (f.num = 3 ∧ ∃ v, f.payload = .vint v ∧
      st' = { st with EntityType := some (uint64ToInt32 v) }) ∨
    (f.num = 4 ∧ ∃ s c, f.payload = .lenDelim s ∧
      CommodityProfileDTO.decode s = .ok c ∧
      st' = { st with CommodityProfile := st.CommodityProfile ++ [c] }) ∨
    (f.num = 5 ∧ ∃ s, f.payload = .lenDelim s ∧ st' = { st with Model := some s }) ∨
    (f.num = 6 ∧ ∃ s, f.payload = .lenDelim s ∧ st' = { st with Vendor := some s }) ∨
    (f.num = 7 ∧ ∃ s, f.payload = .lenDelim s ∧
      st' = { st with Description := some s }) ∨
    (f.num = 10 ∧ ∃ v, f.payload = .vint v ∧
      st' = { st with EnableProvisionMatch := some (decodeBoolNat v) }) ∨
    (f.num = 11 ∧ ∃ v, f.payload = .vint v ∧
      st' = { st with EnableResizeMatch := some (decodeBoolNat v) }) ∨
    (f.num = 12 ∧ ∃ s, f.payload = .lenDelim s ∧
      st' = { st with EntityProperties := st.EntityProperties ++ [s] }) ∨
    (f.num = 8 ∧ ∃ v, EntityProfileDTO_VMProfileDTO.decode f.content = .ok v ∧
      st' = { st with VMOrPMProfileData := some (.VmProfileDTO v) }) ∨
    (f.num = 9 ∧ ∃ p, EntityProfileDTO_PMProfileDTO.decode f.content = .ok p ∧
      st' = { st with VMOrPMProfileData := some (.PmProfileDTO p) }) ∨
    (f.num ≠ 8 ∧ f.num ≠ 9 ∧
      st' = { st with XXX_unrecognized := st.XXX_unrecognized ++ f.raw }) := by
  unfold setEPField at h
  by_cases h1 : f.num = 1
  · rw [if_pos h1] at h
    cases hp : f.payload <;> simp only [hp] at h <;> cases h
    rename_i s
    exact Or.inl ⟨h1, s, rfl, rfl⟩
  rw [if_neg h1] at h
  by_cases h2 : f.num = 2
  · rw [if_pos h2] at h
    cases hp : f.payload <;> simp only [hp] at h <;> cases h
    rename_i s
    exact Or.inr (Or.inl ⟨h2, s, rfl, rfl⟩)
  rw [if_neg h2] at h
  by_cases h3 : f.num = 3
  · rw [if_pos h3] at h
    cases hp : f.payload <;> simp only [hp] at h <;> cases h
    rename_i v
    exact Or.inr (Or.inr (Or.inl ⟨h3, v, rfl, rfl⟩))
  rw [if_neg h3] at h
  by_cases h4 : f.num = 4
  · rw [if_pos h4] at h
    cases hp : f.payload <;> simp only [hp] at h
    on_goal 3 =>
      rename_i s
      cases hd : CommodityProfileDTO.decode s <;> simp only [hd] at h <;> cases h
      rename_i c
      exact Or.inr (Or.inr (Or.inr (Or.inl ⟨h4, s, c, rfl, hd, rfl⟩)))
    all_goals cases h
  rw [if_neg h4] at h
  by_cases h5 : f.num = 5
  · rw [if_pos h5] at h
    cases hp : f.payload <;> simp only [hp] at h <;> cases h
    rename_i s
    exact Or.inr (Or.inr (Or.inr (Or.inr (Or.inl ⟨h5, s, rfl, rfl⟩))))
  rw [if_neg h5] at h
  by_cases h6 : f.num = 6
  · rw [if_pos h6] at h
    cases hp : f.payload <;> simp only [hp] at h <;> cases h
    rename_i s
    exact Or.inr (Or.inr (Or.inr (Or.inr (Or.inr (Or.inl ⟨h6, s, rfl, rfl⟩)))))
  rw [if_neg h6] at h
  by_cases h7 : f.num = 7
  · rw [if_pos h7] at h
    cases hp : f.payload <;> simp only [hp] at h <;> cases h
    rename_i s
    exact Or.inr (Or.inr (Or.inr (Or.inr (Or.inr (Or.inr (Or.inl
      ⟨h7, s, rfl, rfl⟩))))))
  rw [if_neg h7] at h
  by_cases h10 : f.num = 10
  · rw [if_pos h10] at h
    cases hp : f.payload <;> simp only [hp] at h <;> cases h
    rename_i v
    exact Or.inr (Or.inr (Or.inr (Or.inr (Or.inr (Or.inr (Or.inr (Or.inl
      ⟨h10, v, rfl, rfl⟩)))))))
  rw [if_neg h10] at h
  by_cases h11 : f.num = 11
  · rw [if_pos h11] at h
    cases hp : f.payload <;> simp only [hp] at h <;> cases h
    rename_i v
    exact Or.inr (Or.inr (Or.inr (Or.inr (Or.inr (Or.inr (Or.inr (Or.inr (Or.inl
      ⟨h11, v, rfl, rfl⟩))))))))
  rw [if_neg h11] at h
  by_cases h12 : f.num = 12
  · rw [if_pos h12] at h
    cases hp : f.payload <;> simp only [hp] at h <;> cases h
    rename_i s
    exact Or.inr (Or.inr (Or.inr (Or.inr (Or.inr (Or.inr (Or.inr (Or.inr (Or.inr
      (Or.inl ⟨h12, s, rfl, rfl⟩)))))))))
  rw [if_neg h12] at h
  unfold _EntityProfileDTO_OneofUnmarshaler at h
  by_cases h8 : f.num = 8
  · rw [if_pos h8] at h
    by_cases hw : f.wire = 2
    · rw [if_neg (by simp [hw])] at h
      cases hp : f.payload <;> simp only [hp] at h
      on_goal 3 =>
        rename_i c
        cases hd : EntityProfileDTO_VMProfileDTO.decode c <;>
          simp only [hd] at h <;> cases h
        rename_i v
        refine Or.inr (Or.inr (Or.inr (Or.inr (Or.inr (Or.inr (Or.inr (Or.inr
          (Or.inr (Or.inr (Or.inl ⟨h8, v, ?_, rfl⟩))))))))))
        simp [RawField.content, hp, hd]
      all_goals cases h
    · rw [if_pos (by simp [hw])] at h
      cases h
  rw [if_neg h8] at h
  by_cases h9 : f.num = 9
  · rw [if_pos h9] at h
    by_cases hw : f.wire = 2
    · rw [if_neg (by simp [hw])] at h
      cases hp : f.payload <;> simp only [hp] at h
      on_goal 3 =>
        rename_i c
        cases hd : EntityProfileDTO_PMProfileDTO.decode c <;>
          simp only [hd] at h <;> cases h
        rename_i p
        refine Or.inr (Or.inr (Or.inr (Or.inr (Or.inr (Or.inr (Or.inr (Or.inr
          (Or.inr (Or.inr (Or.inr (Or.inl ⟨h9, p, ?_, rfl⟩)))))))))))
        simp [RawField.content, hp, hd]
      all_goals cases h
    · rw [if_pos (by simp [hw])] at h
      cases h
  rw [if_neg h9] at h
  cases h
  exact Or.inr (Or.inr (Or.inr (Or.inr (Or.inr (Or.inr (Or.inr (Or.inr (Or.inr
    (Or.inr (Or.inr (Or.inr ⟨h8, h9, rfl⟩)))))))))))

theorem setEPField_preserves_Id {st st' : EntityProfileDTO} {f : RawField}
    (hn : f.num ≠ 1) (h : setEPField st f = .ok st') : st'.Id = st.Id := by
  rcases setEPField_spec h with ⟨hk, -, -, rfl⟩ | ⟨hk, -, -, rfl⟩ | ⟨hk, -, -, rfl⟩ |
    ⟨hk, -, -, -, -, rfl⟩ | ⟨hk, -, -, rfl⟩ | ⟨hk, -, -, rfl⟩ | ⟨hk, -, -, rfl⟩ |
    ⟨hk, -, -, rfl⟩ | ⟨hk, -, -, rfl⟩ | ⟨hk, -, -, rfl⟩ | ⟨hk, -, -, rfl⟩ |
    ⟨hk, -, -, rfl⟩ | ⟨-, -, rfl⟩
  · exact absurd hk hn
  all_goals rfl

theorem setDPField_preserves_Id {st st' : DeploymentProfileDTO} {f : RawField}
    (hn : f.num ≠ 1) (h : setDPField st f = .ok st') : st'.Id = st.Id := by
  simp only [setDPField, if_neg hn] at h
  repeat' split at h
  all_goals first
    | (injection h with h; subst h; rfl)
    | (cases h)

theorem foldEP_preserves_Id {fs : List RawField} {st st' : EntityProfileDTO}
    (h : foldFields setEPField st fs = .ok st') (hn : ∀ f ∈ fs, f.num ≠ 1) :
    st'.Id = st.Id := by
  induction fs generalizing st with
  | nil =>
    simp only [foldFields] at h
    injection h with h
    subst h
    rfl
  | cons f fs ih =>
    simp only [foldFields] at h
    cases hstep : setEPField st f with
    | error e => rw [hstep] at h; cases h
    | ok st₁ =>
      rw [hstep] at h
      have h1 := setEPField_preserves_Id (hn f (List.mem_cons_self f fs)) hstep
      have h2 := ih h (fun g hg => hn g (List.mem_cons_of_mem f hg))
      rw [h2, h1]

theorem foldDP_preserves_Id {fs : List RawField} {st st' : DeploymentProfileDTO}
    (h : foldFields setDPField st fs = .ok st') (hn : ∀ f ∈ fs, f.num ≠ 1) :
    st'.Id = st.Id := by
  induction fs generalizing st with
  | nil =>
    simp only [foldFields] at h
    injection h with h
    subst h
    rfl
  | cons f fs ih =>
    simp only [foldFields] at h
    cases hstep : setDPField st f with
    | error e => rw [hstep] at h; cases h
    | ok st₁ =>
      rw [hstep] at h
      have h1 := setDPField_preserves_Id (hn f (List.mem_cons_self f fs)) hstep
      have h2 := ih h (fun g hg => hn g (List.mem_cons_of_mem f hg))
      rw [h2, h1]

theorem setEPField_preserves_variant {st st' : EntityProfileDTO} {f : RawField}
    (h8 : f.num ≠ 8) (h9 : f.num ≠ 9) (h : setEPField st f = .ok st') :
    st'.VMOrPMProfileData = st.VMOrPMProfileData := by
  rcases setEPField_spec h with ⟨hk, -, -, rfl⟩ | ⟨hk, -, -, rfl⟩ | ⟨hk, -, -, rfl⟩ |
    ⟨hk, -, -, -, -, rfl⟩ | ⟨hk, -, -, rfl⟩ | ⟨hk, -, -, rfl⟩ | ⟨hk, -, -, rfl⟩ |
    ⟨hk, -, -, rfl⟩ | ⟨hk, -, -, rfl⟩ | ⟨hk, -, -, rfl⟩ | ⟨hk, -, -, rfl⟩ |
    ⟨hk, -, -, rfl⟩ | ⟨-, -, rfl⟩
  · rfl
  · rfl
  · rfl
  · rfl
  · rfl
  · rfl
  · rfl
  · rfl
  · rfl
  · rfl
  · exact absurd hk h8
  · exact absurd hk h9
  · rfl

theorem setEPField_variant8 {st st' : EntityProfileDTO} {f : RawField}
    (h8 : f.num = 8) (h : setEPField st f = .ok st') :
    ∃ v, EntityProfileDTO_VMProfileDTO.decode f.content = .ok v ∧
      st'.VMOrPMProfileData = some (.VmProfileDTO v) := by
  rcases setEPField_spec h with ⟨hk, -, -, rfl⟩ | ⟨hk, -, -, rfl⟩ | ⟨hk, -, -, rfl⟩ |
    ⟨hk, -, -, -, -, rfl⟩ | ⟨hk, -, -, rfl⟩ | ⟨hk, -, -, rfl⟩ | ⟨hk, -, -, rfl⟩ |
    ⟨hk, -, -, rfl⟩ | ⟨hk, -, -, rfl⟩ | ⟨hk, -, -, rfl⟩ | ⟨hk, v, hd, rfl⟩ |
    ⟨hk, -, -, rfl⟩ | ⟨hk, -, rfl⟩
  · exact absurd h8 (by rw [hk]; omega)
  · exact absurd h8 (by rw [hk]; omega)
  · exact absurd h8 (by rw [hk]; omega)
  · exact absurd h8 (by rw [hk]; omega)
  · exact absurd h8 (by rw [hk]; omega)
  · exact absurd h8 (by rw [hk]; omega)
  · exact absurd h8 (by rw [hk]; omega)
  · exact absurd h8 (by rw [hk]; omega)
  · exact absurd h8 (by rw [hk]; omega)
  · exact absurd h8 (by rw [hk]; omega)
  · exact ⟨v, hd, rfl⟩
  · exact absurd h8 (by rw [hk]; omega)
  · exact absurd h8 hk

theorem setEPField_variant9 {st st' : EntityProfileDTO} {f : RawField}
    (h9 : f.num = 9) (h : setEPField st f = .ok st') :
    ∃ p, EntityProfileDTO_PMProfileDTO.decode f.content = .ok p ∧
      st'.VMOrPMProfileData = some (.PmProfileDTO p) := by
  rcases setEPField_spec h with ⟨hk, -, -, rfl⟩ | ⟨hk, -, -, rfl⟩ | ⟨hk, -, -, rfl⟩ |
    ⟨hk, -, -, -, -, rfl⟩ | ⟨hk, -, -, rfl⟩ | ⟨hk, -, -, rfl⟩ | ⟨hk, -, -, rfl⟩ |
    ⟨hk, -, -, rfl⟩ | ⟨hk, -, -, rfl⟩ | ⟨hk, -, -, rfl⟩ | ⟨hk, -, -, rfl⟩ |
    ⟨hk, p, hd, rfl⟩ | ⟨-, hk, rfl⟩
  · exact absurd h9 (by rw [hk]; omega)
  · exact absurd h9 (by rw [hk]; omega)
  · exact absurd h9 (by rw [hk]; omega)
  · exact absurd h9 (by rw [hk]; omega)
  · exact absurd h9 (by rw [hk]; omega)
  · exact absurd h9 (by rw [hk]; omega)
  · exact absurd h9 (by rw [hk]; omega)
  · exact absurd h9 (by rw [hk]; omega)
  · exact absurd h9 (by rw [hk]; omega)
  · exact absurd h9 (by rw [hk]; omega)
  · exact absurd h9 (by rw [hk]; omega)
  · exact ⟨p, hd, rfl⟩
  · exact absurd h9 hk

/-- Last-writer-wins tracking of the oneof through the decode fold: with no
variant tag the union is untouched; otherwise it holds exactly the decoded
payload of the last variant-tagged field. -/
theorem foldEP_variant_tracking {fs : List RawField} {st st' : EntityProfileDTO}
    (h : foldFields setEPField st fs = .ok st') :
    ((fs.filter isVariantTag) = [] →
        st'.VMOrPMProfileData = st.VMOrPMProfileData) ∧
    (∀ fl, (fs.filter isVariantTag).getLast? = some fl →
      (fl.num = 8 → ∃ v, EntityProfileDTO_VMProfileDTO.decode fl.content = .ok v ∧
        st'.VMOrPMProfileData = some (.VmProfileDTO v)) ∧
      (fl.num = 9 → ∃ p, EntityProfileDTO_PMProfileDTO.decode fl.content = .ok p ∧
        st'.VMOrPMProfileData = some (.PmProfileDTO p))) := by
  induction fs generalizing st with
  | nil =>
    simp only [foldFields] at h
    injection h with h
    subst h
    constructor
    · intro _
      rfl
    · intro fl hfl
      simp at hfl
  | cons f fs ih =>
    simp only [foldFields] at h
    cases hstep : setEPField st f with
    | error e => rw [hstep] at h; cases h
    | ok st₁ =>
      rw [hstep] at h
      obtain ⟨ih1, ih2⟩ := ih h
      by_cases hvt : isVariantTag f = true
      · have hcons : (f :: fs).filter isVariantTag = f :: fs.filter isVariantTag := by
          simp [List.filter_cons, hvt]
        rw [hcons]
        constructor
        · intro hnil
          cases hnil
        · intro fl hfl
          cases hfil : fs.filter isVariantTag with
          | cons g gs =>
            rw [hfil] at hfl
            rw [List.getLast?_cons_cons] at hfl
            exact ih2 fl (by rw [hfil]; exact hfl)
          | nil =>
            rw [hfil] at hfl
            simp only [List.getLast?_singleton, Option.some.injEq] at hfl
            subst hfl
            have hpre := ih1 hfil
            simp only [isVariantTag, Bool.or_eq_true, beq_iff_eq] at hvt
            constructor
            · intro h8
              obtain ⟨v, hd, hset⟩ := setEPField_variant8 h8 hstep
              exact ⟨v, hd, by rw [hpre, hset]⟩
            · intro h9
              obtain ⟨p, hd, hset⟩ := setEPField_variant9 h9 hstep
              exact ⟨p, hd, by rw [hpre, hset]⟩
      · have h8 : f.num ≠ 8 := fun hc => hvt (by simp [isVariantTag, hc])
        have h9 : f.num ≠ 9 := fun hc => hvt (by simp [isVariantTag, hc])
        have hpre := setEPField_preserves_variant h8 h9 hstep
        have hcons : (f :: fs).filter isVariantTag = fs.filter isVariantTag := by
          simp [List.filter_cons, isVariantTag, h8, h9]
        rw [hcons]
        constructor
        · intro hnil
          rw [ih1 hnil, hpre]
        · exact ih2

theorem EP_finalize_ok {st m : EntityProfileDTO}
    (h : EntityProfileDTO.finalizeDecode st = .ok m) : m = st := by
  unfold EntityProfileDTO.finalizeDecode at h
  by_cases h1 : st.Id.isNone
  · rw [if_pos h1] at h
    cases h
  · rw [if_neg h1] at h
    by_cases h2 : st.DisplayName.isNone
    · rw [if_pos h2] at h
      cases h
    · rw [if_neg h2] at h
      by_cases h3 : st.EntityType.isNone
      · rw [if_pos h3] at h
        cases h
      · rw [if_neg h3] at h
        injection h with h
        exact h.symm

theorem filter_optField_not {α : Type} (p : RawField → Bool) (o : Option α)
    (mk : α → RawField) (h : ∀ v, p (mk v) = false) :
    (optField o mk).filter p = [] := by
  cases o with
  | none => rfl
  | some v => simp [optField, List.filter_cons, h]

theorem filter_repField_not {α : Type} (p : RawField → Bool) (l : List α)
    (mk : α → RawField) (h : ∀ v, p (mk v) = false) :
    (repField l mk).filter p = [] := by
  induction l with
  | nil => rfl
  | cons a l ih =>
    simp only [repField, List.map_cons, List.filter_cons, h a]
    simpa [repField] using ih

theorem filter_all_none {p : RawField → Bool} {us : List RawField}
    (h : ∀ f ∈ us, p f = false) : us.filter p = [] := by
  induction us with
  | nil => rfl
  | cons f us ih =>
    simp only [List.filter_cons, h f (List.mem_cons_self f us)]
    exact ih (fun g hg => h g (List.mem_cons_of_mem f hg))

/-- A concrete VM profile payload used as a round-trip witness. -/
def sampleVM : EntityProfileDTO_VMProfileDTO := ⟨some 4, some 2400, none, []⟩

/-- A concrete commodity profile used as a round-trip witness. -/
def sampleCP : CommodityProfileDTO := ⟨some 1, some 9600, some 500, none, none, none, []⟩

/-- A concrete entity profile (with a set variant, a commodity, an opaque
property and a preserved unknown field 13) used as a round-trip witness. -/
def sampleEP : EntityProfileDTO :=
  ⟨some [112, 49], some [76, 97], some 1, [sampleCP], none, some [118], none,
   some (.VmProfileDTO sampleVM), some true, none, [[10, 20]], [104, 5]⟩

/-- A concrete deployment profile (with a duplicated related-profile id and
a preserved unknown field 13) used as a round-trip witness. -/
def sampleDP : DeploymentProfileDTO :=
  ⟨some [100, 49], some [110], [[7]], [[112, 49], [112, 49]], [[99, 65]], [104, 5]⟩

/-- C1: for every valid aggregate `x` (EntityProfileDTO, CommodityProfileDTO
or DeploymentProfileDTO), `decode (encode x) = ok x`: presence versus
absence of every optional (pointer) field is preserved (absent fields are
never emitted and stay `none` after the round trip; full structural equality
includes every `Option` field), and the unknown-field bytes carried in
`XXX_unrecognized` are re-emitted verbatim and recovered unchanged. -/
theorem claim_C1_roundtrip :
    (∀ x : EntityProfileDTO, x.Valid = true →
      EntityProfileDTO.decode x.encode = .ok x) ∧
    (∀ c : CommodityProfileDTO, c.Valid = true →
      CommodityProfileDTO.decode c.encode = .ok c) ∧
    (∀ d : DeploymentProfileDTO, d.Valid = true →
      DeploymentProfileDTO.decode d.encode = .ok d) :=
  ⟨EntityProfileDTO_decode_encode, CommodityProfileDTO_decode_encode,
   DeploymentProfileDTO_decode_encode⟩

/-- C1 witness: the round trip at concrete aggregates, validity discharged
by computation. -/
theorem claim_C1_roundtrip_witness :
    EntityProfileDTO.decode sampleEP.encode = .ok sampleEP ∧
    CommodityProfileDTO.decode sampleCP.encode = .ok sampleCP ∧
    DeploymentProfileDTO.decode sampleDP.encode = .ok sampleDP :=
  ⟨claim_C1_roundtrip.1 sampleEP (by decide),
   claim_C1_roundtrip.2.1 sampleCP (by decide),
   claim_C1_roundtrip.2.2 sampleDP (by decide)⟩

/-- C2: when a byte stream for EntityProfileDTO contains both variant tags
8 and 9, decoding yields a union holding only the variant of the
last-occurring variant tag; each recognized variant tag overwrites any
earlier-decoded variant (established by `foldEP_variant_tracking`). -/
theorem claim_C2_last_variant_tag_wins (bs : List Nat) (fs : List RawField)
    (m : EntityProfileDTO) (fl : RawField)
    (hparse : parseFields bs.length bs = .ok fs)
    (hdec : EntityProfileDTO.decode bs = .ok m)
    (h8 : ∃ f ∈ fs, f.num = 8) (h9 : ∃ f ∈ fs, f.num = 9)
    (hlast : (fs.filter isVariantTag).getLast? = some fl) :
    (fl.num = 8 → ∃ v, EntityProfileDTO_VMProfileDTO.decode fl.content = .ok v ∧
      m.VMOrPMProfileData = some (.VmProfileDTO v)) ∧
    (fl.num = 9 → ∃ p, EntityProfileDTO_PMProfileDTO.decode fl.content = .ok p ∧
      m.VMOrPMProfileData = some (.PmProfileDTO p)) := by
  unfold EntityProfileDTO.decode at hdec
  rw [hparse] at hdec
  have hdec' : (match foldFields setEPField epInit fs with
      | .error e => (.error e : Except DecodeError EntityProfileDTO)
      | .ok st => st.finalizeDecode) = .ok m := hdec
  cases hfold : foldFields setEPField epInit fs with
  | error e => rw [hfold] at hdec'; cases hdec'
  | ok st =>
    rw [hfold] at hdec'
    have hm := EP_finalize_ok hdec'
    subst hm
    exact (foldEP_variant_tracking hfold).2 fl hlast

/-- C2 witness: a stream carrying tag 8 then tag 9; the decoded union holds
the PM variant from the last tag. -/
theorem claim_C2_witness :
    ((9 : Nat) = 8 → ∃ v, EntityProfileDTO_VMProfileDTO.decode [] = .ok v ∧
      (⟨some [97], some [98], some 0, [], none, none, none,
        some (.PmProfileDTO ⟨none, none, []⟩), none, none, [], []⟩ :
        EntityProfileDTO).VMOrPMProfileData = some (.VmProfileDTO v)) ∧
    ((9 : Nat) = 9 → ∃ p, EntityProfileDTO_PMProfileDTO.decode [] = .ok p ∧
      (⟨some [97], some [98], some 0, [], none, none, none,
        some (.PmProfileDTO ⟨none, none, []⟩), none, none, [], []⟩ :
        EntityProfileDTO).VMOrPMProfileData = some (.PmProfileDTO p)) :=
  claim_C2_last_variant_tag_wins
    [10, 1, 97, 18, 1, 98, 24, 0, 66, 0, 74, 0]
    [⟨1, 2, .lenDelim [97], [10, 1, 97]⟩, ⟨2, 2, .lenDelim [98], [18, 1, 98]⟩,
     ⟨3, 0, .vint 0, [24, 0]⟩, ⟨8, 2, .lenDelim [], [66, 0]⟩,
     ⟨9, 2, .lenDelim [], [74, 0]⟩]
    ⟨some [97], some [98], some 0, [], none, none, none,
      some (.PmProfileDTO ⟨none, none, []⟩), none, none, [], []⟩
    ⟨9, 2, .lenDelim [], [74, 0]⟩
    (by rfl) (by rfl) (by decide) (by decide) (by rfl)

/-- C3: encoding a valid EntityProfileDTO emits at most one of wire tags 8
and 9: exactly the tag of the set variant, none when the union is nil, and
never both (the parsed field stream of the emitted bytes contains exactly
the matching counts). -/
theorem claim_C3_variant_exclusivity (x : EntityProfileDTO)
    (hx : x.Valid = true) :
    ∃ fs, parseFields x.encode.length x.encode = .ok fs ∧
      ((fs.filter fun f => f.num == 8).length =
        match x.VMOrPMProfileData with
        | some (.VmProfileDTO _) => 1
        | _ => 0) ∧
      ((fs.filter fun f => f.num == 9).length =
        match x.VMOrPMProfileData with
        | some (.PmProfileDTO _) => 1
        | _ => 0) := by
  simp only [EntityProfileDTO.Valid, Bool.and_eq_true] at hx
  obtain ⟨⟨⟨⟨⟨⟨-, -⟩, -⟩, -⟩, -⟩, -⟩, hu⟩ := hx
  obtain ⟨us, hparse, hall⟩ := unknownOk_parse hu
  have hp := parse_encode_skeleton (EntityProfileDTO.knownFields_selfParse x) hparse
  refine ⟨x.knownFields ++ us, by simpa [EntityProfileDTO.encode] using hp, ?_, ?_⟩
  · rw [List.filter_append, List.length_append]
    have hus : (us.filter fun f => f.num == 8).length = 0 := by
      rw [filter_all_none]
      · rfl
      · intro f hf
        have hmem : ¬(f.num ∈ [1, 2, 3, 4, 5, 6, 7, 8, 9, 10, 11, 12]) := by
          have h1 := (List.all_eq_true.mp hall) f hf
          simpa using h1
        simp only [beq_eq_false_iff_ne, ne_eq]
        intro hc
        exact hmem (by simp [hc])
    rw [hus]
    unfold EntityProfileDTO.knownFields
    simp only [List.filter_append, List.length_append]
    rw [filter_optField_not _ _ _ (fun v => rfl),
      filter_optField_not _ _ _ (fun v => rfl),
      filter_optField_not _ _ _ (fun v => rfl),
      filter_repField_not _ _ _ (fun v => rfl),
      filter_optField_not _ _ _ (fun v => rfl),
      filter_optField_not _ _ _ (fun v => rfl),
      filter_optField_not _ _ _ (fun v => rfl),
      filter_optField_not _ _ _ (fun v => rfl),
      filter_optField_not _ _ _ (fun v => rfl),
      filter_repField_not _ _ _ (fun v => rfl)]
    cases hvv : x.VMOrPMProfileData with
    | none => simp [variantFields]
    | some w => cases w <;> simp [variantFields, List.filter_cons, mkLenField]
  · rw [List.filter_append, List.length_append]
    have hus : (us.filter fun f => f.num == 9).length = 0 := by
      rw [filter_all_none]
      · rfl
      · intro f hf
        have hmem : ¬(f.num ∈ [1, 2, 3, 4, 5, 6, 7, 8, 9, 10, 11, 12]) := by
          have h1 := (List.all_eq_true.mp hall) f hf
          simpa using h1
        simp only [beq_eq_false_iff_ne, ne_eq]
        intro hc
        exact hmem (by simp [hc])
    rw [hus]
    unfold EntityProfileDTO.knownFields
    simp only [List.filter_append, List.length_append]
    rw [filter_optField_not _ _ _ (fun v => rfl),
      filter_optField_not _ _ _ (fun v => rfl),
      filter_optField_not _ _ _ (fun v => rfl),
      filter_repField_not _ _ _ (fun v => rfl),
      filter_optField_not _ _ _ (fun v => rfl),
      filter_optField_not _ _ _ (fun v => rfl),
      filter_optField_not _ _ _ (fun v => rfl),
      filter_optField_not _ _ _ (fun v => rfl),
      filter_optField_not _ _ _ (fun v => rfl),
      filter_repField_not _ _ _ (fun v => rfl)]
    cases hvv : x.VMOrPMProfileData with
    | none => simp [variantFields]
    | some w => cases w <;> simp [variantFields, List.filter_cons, mkLenField]

/-- C3 witness: the emitted stream of the sample profile (VM variant set)
carries exactly one tag-8 field and no tag-9 field. -/
theorem claim_C3_witness :
    ∃ fs, parseFields sampleEP.encode.length sampleEP.encode = .ok fs ∧
      ((fs.filter fun f => f.num == 8).length =
        match sampleEP.VMOrPMProfileData with
        | some (.VmProfileDTO _) => 1
        | _ => 0) ∧
      ((fs.filter fun f => f.num == 9).length =
        match sampleEP.VMOrPMProfileData with
        | some (.PmProfileDTO _) => 1
        | _ => 0) :=
  claim_C3_variant_exclusivity sampleEP (by decide)

/-- C4: decoding a recognized variant tag (8 or 9) whose wire type is not
the length-delimited form (2) is a decode error: the oneof unmarshaler
reports the field handled (`true`) together with the bad-wire-type error
(`MALFORMED_VARIANT`), and the message-level dispatch returns that error,
terminating the decode instead of falling through to unknown-field
preservation. -/
theorem claim_C4_malformed_variant :
    (∀ (wire : Nat) (payload : WirePayload), wire ≠ 2 →
      _EntityProfileDTO_OneofUnmarshaler 8 wire payload =
        (true, .error .malformedVariant) ∧
      _EntityProfileDTO_OneofUnmarshaler 9 wire payload =
        (true, .error .malformedVariant)) ∧
    (∀ (st : EntityProfileDTO) (f : RawField), (f.num = 8 ∨ f.num = 9) →
      f.wire ≠ 2 → setEPField st f = .error .malformedVariant) := by
  have hun : ∀ (wire : Nat) (payload : WirePayload), wire ≠ 2 →
      _EntityProfileDTO_OneofUnmarshaler 8 wire payload =
        (true, .error .malformedVariant) ∧
      _EntityProfileDTO_OneofUnmarshaler 9 wire payload =
        (true, .error .malformedVariant) := by
    intro wire payload hw
    constructor
    · unfold _EntityProfileDTO_OneofUnmarshaler
      rw [if_pos rfl, if_pos hw]
    · unfold _EntityProfileDTO_OneofUnmarshaler
      rw [if_neg (by omega), if_pos rfl, if_pos hw]
  refine ⟨hun, ?_⟩
  intro st f hnum hw
  rcases hnum with h8 | h9
  · simp only [setEPField, h8]
    norm_num
    rw [(hun f.wire f.payload hw).1]
  · simp only [setEPField, h9]
    norm_num
    rw [(hun f.wire f.payload hw).2]

/-- C4 witness: tag 8 with varint wire type 0. -/
theorem claim_C4_witness :
    (_EntityProfileDTO_OneofUnmarshaler 8 0 (.vint 5) =
        (true, .error .malformedVariant) ∧
      _EntityProfileDTO_OneofUnmarshaler 9 0 (.vint 5) =
        (true, .error .malformedVariant)) ∧
    setEPField epInit ⟨8, 0, .vint 5, [64, 5]⟩ = .error .malformedVariant :=
  ⟨claim_C4_malformed_variant.1 0 (.vint 5) (by decide),
   claim_C4_malformed_variant.2 epInit ⟨8, 0, .vint 5, [64, 5]⟩ (Or.inl rfl)
     (by decide)⟩

/-- C5: after parsing, decode of an EntityProfileDTO (or
DeploymentProfileDTO) stream in which the required field 1 (`id`) was never
encountered fails with `MISSING_REQUIRED_FIELD("id")` rather than yielding
an aggregate with an absent id (the fold hypothesis restricts the statement
to streams that decode cleanly up to the required-field check). -/
theorem claim_C5_missing_required_id :
    (∀ (bs : List Nat) (fs : List RawField) (st : EntityProfileDTO),
      parseFields bs.length bs = .ok fs →
      foldFields setEPField epInit fs = .ok st →
      (∀ f ∈ fs, f.num ≠ 1) →
      EntityProfileDTO.decode bs = .error (.missingRequiredField "id")) ∧
    (∀ (bs : List Nat) (fs : List RawField) (st : DeploymentProfileDTO),
      parseFields bs.length bs = .ok fs →
      foldFields setDPField ⟨none, none, [], [], [], []⟩ fs = .ok st →
      (∀ f ∈ fs, f.num ≠ 1) →
      DeploymentProfileDTO.decode bs = .error (.missingRequiredField "id")) := by
  constructor
  · intro bs fs st hp hf hn
    unfold EntityProfileDTO.decode
    rw [hp]
    show (match foldFields setEPField epInit fs with
      | .error e => (.error e : Except DecodeError EntityProfileDTO)
      | .ok st => st.finalizeDecode) = .error (.missingRequiredField "id")
    rw [hf]
    show EntityProfileDTO.finalizeDecode st = .error (.missingRequiredField "id")
    have hid : st.Id = none := by
      have h1 := foldEP_preserves_Id hf hn
      simpa [epInit] using h1
    unfold EntityProfileDTO.finalizeDecode
    rw [hid]
    rfl
  · intro bs fs st hp hf hn
    unfold DeploymentProfileDTO.decode
    rw [hp]
    show (match foldFields setDPField ⟨none, none, [], [], [], []⟩ fs with
      | .error e => (.error e : Except DecodeError DeploymentProfileDTO)
      | .ok st => st.finalizeDecode) = .error (.missingRequiredField "id")
    rw [hf]
    show DeploymentProfileDTO.finalizeDecode st = .error (.missingRequiredField "id")
    have hid : st.Id = none := by
      have h1 := foldDP_preserves_Id hf hn
      simpa using h1
    unfold DeploymentProfileDTO.finalizeDecode
    rw [hid]
    rfl

/-- C5 witness: the empty stream (no tag 1 at all) fails with the missing
`id` error on both message types. -/
theorem claim_C5_witness :
    EntityProfileDTO.decode [] = .error (.missingRequiredField "id") ∧
    DeploymentProfileDTO.decode [] = .error (.missingRequiredField "id") :=
  ⟨claim_C5_missing_required_id.1 [] [] epInit rfl rfl (by simp),
   claim_C5_missing_required_id.2 [] [] ⟨none, none, [], [], [], []⟩ rfl rfl
     (by simp)⟩

/-- C6: `derivedConsumed` returns `consumed` when present, else
`capacity × consumedFactor` when both are present, else absent;
`usableCapacity` returns `capacity − overhead` when capacity is present
(absent overhead treated as 0), else absent; concretely capacity 9600 with
consumedFactor 0.5 derives consumed 4800, and capacity 2000 with overhead
200 gives usable capacity 1800. -/
theorem claim_C6_derivation :
    (∀ (p : CommodityProfileQ) (c : Rat), p.consumed = some c →
      derivedConsumed p = some c) ∧
    (∀ (p : CommodityProfileQ) (cap f : Rat), p.consumed = none →
      p.capacity = some cap → p.consumedFactor = some f →
      derivedConsumed p = some (cap * f)) ∧
    (∀ p : CommodityProfileQ, p.consumed = none → p.capacity = none →
      derivedConsumed p = none) ∧
    (∀ p : CommodityProfileQ, p.consumed = none → p.consumedFactor = none →
      derivedConsumed p = none) ∧
    (∀ (p : CommodityProfileQ) (cap : Rat), p.capacity = some cap →
      usableCapacity p = some (cap - p.overhead.getD 0)) ∧
    (∀ p : CommodityProfileQ, p.capacity = none → usableCapacity p = none) ∧
    derivedConsumed
      ⟨some CommodityDTO_CPU, some 9600, some (1 / 2), none, none, none⟩ =
      some 4800 ∧
    usableCapacity ⟨none, some 2000, none, none, none, some 200⟩ = some 1800 := by
  refine ⟨?_, ?_, ?_, ?_, ?_, ?_, ?_, ?_⟩
  · intro p c h
    simp [derivedConsumed, h]
  · intro p cap f h1 h2 h3
    simp [derivedConsumed, h1, h2, h3]
  · intro p h1 h2
    simp [derivedConsumed, h1, h2]
  · intro p h1 h2
    cases hcap : p.capacity <;> simp [derivedConsumed, h1, h2, hcap]
  · intro p cap h
    simp [usableCapacity, h]
  · intro p h
    simp [usableCapacity, h]
  · norm_num [derivedConsumed]
  · norm_num [usableCapacity]

/-- C6 witness: the general clauses applied at the spec's concrete
profiles. -/
theorem claim_C6_witness :
    derivedConsumed
      ⟨some CommodityDTO_CPU, some 9600, some (1 / 2), none, none, none⟩ =
      some ((9600 : Rat) * (1 / 2)) ∧
    usableCapacity ⟨none, some 2000, none, none, none, some 200⟩ =
      some ((2000 : Rat) - 200) :=
  ⟨claim_C6_derivation.2.1 _ 9600 (1 / 2) rfl rfl rfl,
   claim_C6_derivation.2.2.2.2.1 _ 2000 rfl⟩

/-- C7 counterexample: the claim says the encoding path surfaces an error
rather than crashing on an invalid variant state, but the oneof sizer - one
of the two cited encode-path hooks - panics (modelled as `none`) on a
payload of unexpected dynamic type instead of returning anything. -/
theorem claim_C7_counterexample :
    _EntityProfileDTO_OneofSizer .unexpectedType = none := rfl

/-- C7 (amended): when the variant union holds a payload of unexpected
dynamic type, the oneof marshaler surfaces an error (fmt.Errorf) to the
caller rather than crashing, but the companion oneof sizer panics on the
same state; the error-not-crash behaviour holds on the marshal hook only. -/
theorem claim_C7_amended :
    _EntityProfileDTO_OneofMarshaler .unexpectedType =
      .error "EntityProfileDTO.VMOrPMProfileData has unexpected type" ∧
    _EntityProfileDTO_OneofSizer .unexpectedType = none :=
  ⟨rfl, rfl⟩

/-- C8: GetEnableProvisionMatch and GetEnableResizeMatch return the default
`false` when the optional bool field is absent (nil pointer), and the
stored value when the field is present. -/
theorem claim_C8_flag_getters (m : EntityProfileDTO) :
    (m.EnableProvisionMatch = none →
      EntityProfileDTO.GetEnableProvisionMatch (some m) = false) ∧
    (∀ b, m.EnableProvisionMatch = some b →
      EntityProfileDTO.GetEnableProvisionMatch (some m) = b) ∧
    (m.EnableResizeMatch = none →
      EntityProfileDTO.GetEnableResizeMatch (some m) = false) ∧
    (∀ b, m.EnableResizeMatch = some b →
      EntityProfileDTO.GetEnableResizeMatch (some m) = b) := by
  refine ⟨fun h => ?_, fun b h => ?_, fun h => ?_, fun b h => ?_⟩ <;>
    simp [EntityProfileDTO.GetEnableProvisionMatch,
      EntityProfileDTO.GetEnableResizeMatch, h]

/-- C8 witness: absent flag and a present `true` flag. -/
theorem claim_C8_witness :
    EntityProfileDTO.GetEnableProvisionMatch (some epInit) = false ∧
    EntityProfileDTO.GetEnableResizeMatch
      (some { epInit with EnableResizeMatch := some true }) = true :=
  ⟨(claim_C8_flag_getters epInit).1 rfl,
   (claim_C8_flag_getters { epInit with EnableResizeMatch := some true }).2.2.2
     true rfl⟩

/-- C9: every getter of every message type is total on a nil receiver,
returning the field's zero or default value. -/
theorem claim_C9_nil_receiver_getters :
    EntityProfileDTO.GetId none = [] ∧
    EntityProfileDTO.GetDisplayName none = [] ∧
    EntityProfileDTO.GetEntityType none = EntityDTO_SWITCH ∧
    EntityProfileDTO.GetCommodityProfile none = [] ∧
    EntityProfileDTO.GetModel none = [] ∧
    EntityProfileDTO.GetVendor none = [] ∧
    EntityProfileDTO.GetDescription none = [] ∧
    EntityProfileDTO.GetVMOrPMProfileData none = none ∧
    EntityProfileDTO.GetVmProfileDTO none = none ∧
    EntityProfileDTO.GetPmProfileDTO none = none ∧
    EntityProfileDTO.GetEnableProvisionMatch none = false ∧
    EntityProfileDTO.GetEnableResizeMatch none = false ∧
    EntityProfileDTO.GetEntityProperties none = [] ∧
    EntityProfileDTO_VMProfileDTO.GetNumVCPUs none = 0 ∧
    EntityProfileDTO_VMProfileDTO.GetVCPUSpeed none = 0 ∧
    EntityProfileDTO_VMProfileDTO.GetNumStorageConsumed none = 0 ∧
    EntityProfileDTO_PMProfileDTO.GetNumCores none = 0 ∧
    EntityProfileDTO_PMProfileDTO.GetCpuCoreSpeed none = 0 ∧
    CommodityProfileDTO.GetCommodityType none = CommodityDTO_CLUSTER ∧
    CommodityProfileDTO.GetCapacity none = 0 ∧
    CommodityProfileDTO.GetConsumedFactor none = 0 ∧
    CommodityProfileDTO.GetConsumed none = 0 ∧
    CommodityProfileDTO.GetReservation none = 0 ∧
    CommodityProfileDTO.GetOverhead none = 0 ∧
    DeploymentProfileDTO.GetId none = [] ∧
    DeploymentProfileDTO.GetProfileName none = [] ∧
    DeploymentProfileDTO.GetContextData none = [] ∧
    DeploymentProfileDTO.GetRelatedEntityProfileId none = [] ∧
    DeploymentProfileDTO.GetRelatedScopeId none = [] :=
  ⟨rfl, rfl, rfl, rfl, rfl, rfl, rfl, rfl, rfl, rfl, rfl, rfl, rfl, rfl, rfl,
   rfl, rfl, rfl, rfl, rfl, rfl, rfl, rfl, rfl, rfl, rfl, rfl, rfl, rfl⟩

/-- C10: the required-enum getters collapse presence: GetEntityType returns
EntityDTO_SWITCH when entityType is absent and the stored value when
present, so an absent field is indistinguishable through the getter from
one explicitly set to that constant; the underlying pointer field still
distinguishes the two states.  Likewise GetCommodityType with
CommodityDTO_CLUSTER. -/
theorem claim_C10_enum_getter_defaults :
    (∀ m : EntityProfileDTO, m.EntityType = none →
      EntityProfileDTO.GetEntityType (some m) = EntityDTO_SWITCH) ∧
    (∀ m : EntityProfileDTO,
      EntityProfileDTO.GetEntityType
        (some { m with EntityType := some EntityDTO_SWITCH }) = EntityDTO_SWITCH) ∧
    (∀ m : EntityProfileDTO,
      ({ m with EntityType := some EntityDTO_SWITCH } :
        EntityProfileDTO).EntityType ≠ none) ∧
    (∀ p : CommodityProfileDTO, p.CommodityType = none →
      CommodityProfileDTO.GetCommodityType (some p) = CommodityDTO_CLUSTER) ∧
    (∀ p : CommodityProfileDTO,
      CommodityProfileDTO.GetCommodityType
        (some { p with CommodityType := some CommodityDTO_CLUSTER }) =
        CommodityDTO_CLUSTER) ∧
    (∀ p : CommodityProfileDTO,
      ({ p with CommodityType := some CommodityDTO_CLUSTER } :
        CommodityProfileDTO).CommodityType ≠ none) := by
  refine ⟨fun m h => ?_, fun m => ?_, fun m => ?_, fun p h => ?_, fun p => ?_,
    fun p => ?_⟩
  · simp [EntityProfileDTO.GetEntityType, h]
  · simp [EntityProfileDTO.GetEntityType]
  · simp
  · simp [CommodityProfileDTO.GetCommodityType, h]
  · simp [CommodityProfileDTO.GetCommodityType]
  · simp

/-- C10 witness: the absent-field clauses at concrete messages. -/
theorem claim_C10_witness :
    EntityProfileDTO.GetEntityType (some epInit) = EntityDTO_SWITCH ∧
    CommodityProfileDTO.GetCommodityType
      (some ⟨none, none, none, none, none, none, []⟩) = CommodityDTO_CLUSTER :=
  ⟨claim_C10_enum_getter_defaults.1 epInit rfl,
   claim_C10_enum_getter_defaults.2.2.2.1 ⟨none, none, none, none, none, none, []⟩
     rfl⟩

end ProfileProto
